import Mathlib

/-!
Verification development for the `pytube` helper repository.

The Python sources `pytube_helper.py` and `progress_store.py` are embedded
shallowly: pure string functions become Lean functions over `List Char`,
stateful or effectful code (the retry loop, progress callbacks, progress-file
writes, sleeps) becomes a pure function from an explicit environment
describing the behaviour of the external world (network resolution results,
byte-transfer outcomes, progress-chunk events) to a result together with a
trace of observable effects.

Python's standard-library functions used by the source (`urllib.parse.urlparse`,
`urllib.parse.parse_qs`, `str.split`, `str.strip`, `str.isalnum`,
`os.path.join`) are modelled on `List Char` following their documented
behaviour; percent-decoding is modelled byte-per-escape, which agrees with
CPython on ASCII escapes (multi-byte UTF-8 escape sequences do not occur in
any statement proved below).
-/

namespace PytubeHelper

/-! ### Generic string/list helpers mirroring Python primitives -/

/-- Split a list at the first occurrence of `sep`.  Returns the part before
the separator and, when the separator occurs, the part after it.  This mirrors
Python's `s.split(sep, 1)` (two pieces) and `s.find(sep)`-then-slice idioms. -/
def splitFirst (sep : Char) : List Char → List Char × Option (List Char)
  | [] => ([], none)
  | c :: cs =>
    if c = sep then ([], some cs)
    else
      let r := splitFirst sep cs
      (c :: r.1, r.2)

/-- Python `str.split(sep)` with a single-character separator: keeps empty
pieces and yields `[""]` on the empty string. -/
def pySplit (sep : Char) : List Char → List (List Char)
  | [] => [[]]
  | c :: cs =>
    if c = sep then [] :: pySplit sep cs
    else
      match pySplit sep cs with
      | h :: t => (c :: h) :: t
      | [] => [[c]]

/-- Python's `needle in haystack` substring test. -/
def pyContainsSub (needle : List Char) : List Char → Bool
  | [] => needle.isEmpty
  | c :: cs => needle.isPrefixOf (c :: cs) || pyContainsSub needle cs

/-- Python's `str.endswith`. -/
def pyEndsWith (l suffix : List Char) : Bool :=
  suffix.isSuffixOf l

/-- Python truthiness of an optional string (`None` and `''` are falsy). -/
def pyTruthy : Option String → Bool
  | none => false
  | some s => s ≠ ""

/-! ### Model of `urllib.parse.urlparse` (the components the source reads) -/

/-- The components of a parsed URL that `_normalize_video_url` consults. -/
structure UrlParts where
  netloc : List Char
  path : List Char
  query : List Char
deriving Repr, DecidableEq

/-- Characters allowed in a URL scheme (`urllib.parse.scheme_chars`). -/
def schemeChar (c : Char) : Bool :=
  c.isAlphanum || c = '+' || c = '-' || c = '.'

/-- Remove a leading `scheme:` from a URL when the prefix before the first
colon is a valid scheme name, as `urlsplit` does. -/
def pyDropScheme (url : List Char) : List Char :=
  match splitFirst ':' url with
  | (before, some rest) =>
    match before with
    | [] => url
    | c0 :: _ =>
      if c0.isAlpha && before.all schemeChar then rest else url
  | (_, none) => url

/-- Extract the netloc when the (scheme-stripped) URL starts with `//`:
the netloc extends to the first `/`, `?` or `#`. -/
def pySplitNetloc (url : List Char) : List Char × List Char :=
  match url with
  | '/' :: '/' :: rest =>
    (rest.takeWhile (fun c => c ≠ '/' && c ≠ '?' && c ≠ '#'),
     rest.dropWhile (fun c => c ≠ '/' && c ≠ '?' && c ≠ '#'))
  | _ => ([], url)

/-- Model of `urllib.parse.urlparse`, restricted to the fields the source
reads: scheme removal, netloc extraction, fragment split, query split. -/
def pyUrlparse (url : List Char) : UrlParts :=
  let rest := pyDropScheme url
  let nl := pySplitNetloc rest
  let preFrag := (splitFirst '#' nl.2).1
  let pq := splitFirst '?' preFrag
  { netloc := nl.1, path := pq.1, query := pq.2.getD [] }

/-! ### Model of `urllib.parse.parse_qs` -/

/-- Hexadecimal digit value, if any. -/
def hexVal? (c : Char) : Option Nat :=
  if '0' ≤ c ∧ c ≤ '9' then some (c.toNat - '0'.toNat)
  else if 'a' ≤ c ∧ c ≤ 'f' then some (c.toNat - 'a'.toNat + 10)
  else if 'A' ≤ c ∧ c ≤ 'F' then some (c.toNat - 'A'.toNat + 10)
  else none

/-- Python `s.replace('+', ' ')`, applied to query components by `parse_qsl`. -/
def pyReplacePlus (l : List Char) : List Char :=
  l.map (fun c => if c = '+' then ' ' else c)

/-- Percent-decoding (`urllib.parse.unquote`), modelled one byte per escape;
this agrees with CPython whenever every escape denotes an ASCII byte.  A `%`
followed by two hex digits decodes to that byte; an ill-formed escape keeps
the `%` and rescans from the next character. -/
def pyUnquote : List Char → List Char
  | [] => []
  | '%' :: c1 :: c2 :: rest =>
    match hexVal? c1, hexVal? c2 with
    | some h1, some h2 => Char.ofNat (16 * h1 + h2) :: pyUnquote rest
    | _, _ => '%' :: pyUnquote (c1 :: c2 :: rest)
  | c :: rest => c :: pyUnquote rest

/-- Model of `parse_qsl` with default options: split pairs on `&`, skip empty
pairs, skip pairs without `=` and pairs with a blank value, then apply
`+`-to-space replacement and percent-decoding to name and value. -/
def parse_qsl (qs : List Char) : List (List Char × List Char) :=
  (pySplit '&' qs).filterMap (fun pair =>
    if pair.isEmpty then none
    else
      match splitFirst '=' pair with
      | (_, none) => none
      | (name, some value) =>
        if value.isEmpty then none
        else some (pyUnquote (pyReplacePlus name), pyUnquote (pyReplacePlus value)))

/-- The list `parse_qs(query).get('v')` would yield (empty when the key is
absent; `parse_qs` never stores an empty value list, so Python's `if v:` test
is exactly nonemptiness of this list). -/
def parse_qs_v (query : List Char) : List (List Char) :=
  (parse_qsl query).filterMap (fun p => if p.1 = ['v'] then some p.2 else none)

/-! ### `_normalize_video_url` -/

/-- The canonical prefix `https://www.youtube.com/watch?v=`. -/
def watchPrefix : List Char := "https://www.youtube.com/watch?v=".toList

/-- Embedding of `_normalize_video_url` on character lists, following the
source line by line: the `youtu.be` branch (path with leading slashes
stripped, only when nonempty), then for `youtube` hosts the `v=` query
parameter, then the `/shorts/<id>` path shape; every other input is returned
unchanged (the function's `except` clause also returns the input). -/
def normalizeListAux (url : List Char) : List Char :=
  let parsed := pyUrlparse url
  let branch1 : Option (List Char) :=
    if pyEndsWith parsed.netloc "youtu.be".toList then
      let vid := parsed.path.dropWhile (fun c => c = '/')
      if vid.isEmpty then none else some (watchPrefix ++ vid)
    else none
  match branch1 with
  | some r => r
  | none =>
    if pyEndsWith parsed.netloc "youtube.com".toList
        || pyContainsSub "youtube".toList parsed.netloc then
      match parse_qs_v parsed.query with
      | v0 :: _ => watchPrefix ++ v0
      | [] =>
        let parts := pySplit '/' parsed.path
        match parts.indexOf? "shorts".toList with
        | some idx =>
          if idx + 1 < parts.length then watchPrefix ++ parts.getD (idx + 1) []
          else url
        | none => url
    else url

/-- Embedding of `_normalize_video_url` on `String`. -/
def _normalize_video_url (url : String) : String :=
  ⟨normalizeListAux url.toList⟩

/-- Guard of the first rewrite branch: a `youtu.be` host with a nonempty
path (after stripping leading slashes). -/
def isShortLinkForm (url : List Char) : Bool :=
  pyEndsWith (pyUrlparse url).netloc "youtu.be".toList
    && !((pyUrlparse url).path.dropWhile (fun c => c = '/')).isEmpty

/-- Host test of the second and third branches. -/
def isYoutubeHost (url : List Char) : Bool :=
  pyEndsWith (pyUrlparse url).netloc "youtube.com".toList
    || pyContainsSub "youtube".toList (pyUrlparse url).netloc

/-- Guard of the second rewrite branch: the first guard failed, the host is a
youtube host, and the query carries a `v` parameter. -/
def isVParamForm (url : List Char) : Bool :=
  !isShortLinkForm url && isYoutubeHost url
    && !(parse_qs_v (pyUrlparse url).query).isEmpty

/-- Guard of the third rewrite branch: the first two guards failed, the host
is a youtube host, and the path has a `shorts` segment followed by another
segment. -/
def isShortsForm (url : List Char) : Bool :=
  !isShortLinkForm url && !isVParamForm url && isYoutubeHost url
    && (match (pySplit '/' (pyUrlparse url).path).indexOf? "shorts".toList with
        | some idx => decide (idx + 1 < (pySplit '/' (pyUrlparse url).path).length)
        | none => false)

/-- The video id `_normalize_video_url` extracts, when it rewrites at all. -/
def extractedId (url : List Char) : Option (List Char) :=
  if isShortLinkForm url then
    some ((pyUrlparse url).path.dropWhile (fun c => c = '/'))
  else if isVParamForm url then
    some ((parse_qs_v (pyUrlparse url).query).headD [])
  else if isShortsForm url then
    some ((pySplit '/' (pyUrlparse url).path).getD
      (((pySplit '/' (pyUrlparse url).path).indexOf? "shorts".toList).getD 0 + 1) [])
  else none

/-- Characters of a video id that query parsing leaves untouched: no pair
separator `&`, no plus (decoded to a space), no fragment marker `#`, no
percent escape. -/
def querySafeId (vid : List Char) : Bool :=
  vid.all (fun c => c ≠ '&' && c ≠ '+' && c ≠ '#' && c ≠ '%')

/-! ### `_safe_filename` -/

/-- The constant `SAFE_FILENAME_CHARS = " ._-()[]"` from `pytube_helper.py`. -/
def SAFE_FILENAME_CHARS : List Char := " ._-()[]".toList

/-- Python `str.isalnum` restricted to ASCII input (every statement proved
below evaluates it on ASCII characters, where it agrees with CPython). -/
def pyIsAlnum (c : Char) : Bool := c.isAlphanum

/-- The default whitespace set of Python `str.strip`, ASCII part. -/
def pyIsSpaceChar (c : Char) : Bool :=
  c = ' ' || c = '\t' || c = '\n' || c = '\x0d' || c = '\x0b' || c = '\x0c'

/-- Python `str.strip()` with no argument: drop leading and trailing
whitespace. -/
def pyStrip (l : List Char) : List Char :=
  ((l.dropWhile pyIsSpaceChar).reverse.dropWhile pyIsSpaceChar).reverse

/-- Embedding of `_safe_filename`: keep alphanumerics and the characters of
`SAFE_FILENAME_CHARS`, then strip surrounding whitespace. -/
def _safe_filename (title : List Char) : List Char :=
  pyStrip (title.filter (fun c => pyIsAlnum c || SAFE_FILENAME_CHARS.contains c))

/-- `_safe_filename` on `String`. -/
def safeFilenameStr (title : String) : String :=
  ⟨_safe_filename title.toList⟩

end PytubeHelper

namespace ProgressStore

/-! ### `progress_store.py`

The progress store works on a filesystem, modelled as a map from paths to
file contents.  A JSON progress record is a finite list of key/value pairs
(`json.dump` of a `dict` followed by `json.load` reproduces the dict, so the
serialized form is modelled by the parsed record itself); a file that exists
but that `json.load` (or `open`) rejects is modelled by the `corrupt`
content. -/

/-- JSON-representable scalar values appearing in progress records
(strings, ints, and floats — floats modelled as rationals). -/
inductive PyVal where
  | vs (s : String)
  | vi (n : Int)
  | vf (q : ℚ)
deriving Repr, DecidableEq

/-- A progress record: the key/value pairs of the written `dict`. -/
abbrev ProgressData := List (String × PyVal)

/-- Content of a file in the store: a well-formed JSON record, or bytes that
reading/parsing rejects (unreadable or corrupt). -/
inductive FileContent where
  | good (d : ProgressData)
  | corrupt
deriving DecidableEq

/-- The filesystem: a partial map from paths to file contents. -/
def FS := String → Option FileContent

/-- `os.path.join` / `pathlib` `/` for a relative second component. -/
def pyPathJoin (a b : String) : String :=
  if a = "" then b
  else if a.endsWith "/" then a ++ b
  else a ++ "/" ++ b

/-- Embedding of `ensure_progress_dir`: the `.progress` directory under the
output folder (the `mkdir` side effect has no bearing on the path returned). -/
def ensure_progress_dir (output_folder : String) : String :=
  pyPathJoin output_folder ".progress"

/-- Embedding of `progress_file_for_id`. -/
def progress_file_for_id (output_folder uid : String) : String :=
  pyPathJoin (ensure_progress_dir output_folder) (uid ++ ".json")

/-- Embedding of `write_progress_file`.  `ioOk` says whether the underlying
dump-to-temporary-and-atomic-replace succeeds; on success the target path
holds exactly the serialized record, on failure every exception is caught
(logged only) and the store is unchanged — the temporary file is removed and,
thanks to `os.replace`, no partially-written content is ever visible. -/
def write_progress_file (ioOk : Bool) (path : String) (data : ProgressData)
    (fs : FS) : FS :=
  if ioOk then fun p => if p = path then some (.good data) else fs p
  else fs

/-- Embedding of `read_progress_file`: return the parsed record, or `{}` when
the file is missing, unreadable or corrupt (every exception is caught). -/
def read_progress_file (path : String) (fs : FS) : ProgressData :=
  match fs path with
  | some (.good d) => d
  | some .corrupt => []
  | none => []

end ProgressStore

namespace PytubeHelper

open ProgressStore

/-! ### Stream metadata and the composite resolver `get_video_streams`

A pytube `Stream` object is modelled by the attributes the source reads:
`resolution` (for progressive/adaptive video) and `abr` (for audio).  The
network behaviour of the two backends is an explicit environment. -/

/-- The attributes of a pytube `Stream` consulted by the source. -/
structure YtStream where
  resolution : Option String
  abr : Option String
deriving Repr, DecidableEq

/-- The stream lists produced by pytube's filters for one video, before the
source sorts them (the filters themselves are external library calls). -/
structure PytubeStreams where
  title : String
  progressive : List YtStream
  adaptive_video : List YtStream
  audio : List YtStream

/-- Behaviour of the external world for one `get_video_streams` call:
the outcome of the pytube resolution and, for the fallback, whether `yt_dlp`
is importable and what `extract_info` yields (its `title`; `info.get('title')`
is modelled as present, as yt-dlp always reports a title). -/
structure ResolveEnv where
  pytube : Except String PytubeStreams
  ytdlpAvailable : Bool
  ytdlp : Except String String

/-- A raised Python exception: its message and, when raised with
`raise ... from cause`, the message of the chained cause. -/
structure PyErr where
  message : String
  cause : Option String
deriving Repr, DecidableEq

/-- The dictionary returned by `get_video_streams`: the pytube shape carries
the three sorted stream lists, the yt-dlp fallback shape carries no stream
lists (so that indexing them raises `KeyError`, as in the source). -/
inductive StreamsDict where
  | pytubeDict (backend title : String)
      (progressive adaptive_video audio : List YtStream)
  | ytdlpDict (backend title : String)
deriving Repr, DecidableEq

/-- The `'backend'` entry of the returned dictionary. -/
def StreamsDict.backend : StreamsDict → String
  | .pytubeDict b _ _ _ _ => b
  | .ytdlpDict b _ => b

/-- The `'title'` entry of the returned dictionary. -/
def StreamsDict.title : StreamsDict → String
  | .pytubeDict _ t _ _ _ => t
  | .ytdlpDict _ t => t

/-- Python `int(str)`: strip whitespace, optional sign, then decimal digits;
`none` models the `ValueError` raised on anything else. -/
def pyInt? (l : List Char) : Option Int :=
  let digitsVal : List Char → Option Nat := fun ds =>
    if ds ≠ [] ∧ ds.all Char.isDigit then
      some (ds.foldl (fun acc c => 10 * acc + (c.toNat - '0'.toNat)) 0)
    else none
  match pyStrip l with
  | '-' :: ds => (digitsVal ds).map (fun n => -(n : Int))
  | '+' :: ds => (digitsVal ds).map (fun n => (n : Int))
  | ds => (digitsVal ds).map (fun n => (n : Int))

/-- Python `s.replace('kbps', '')`: remove occurrences left to right. -/
def removeKbps : List Char → List Char
  | 'k' :: 'b' :: 'p' :: 's' :: rest => removeKbps rest
  | c :: rest => c :: removeKbps rest
  | [] => []

/-- Sort key of video streams: `int(s.resolution.replace('p','')) if
s.resolution else 0` (a `.error` models the `ValueError` of `int`). -/
def resolutionKey (s : YtStream) : Except String Int :=
  match s.resolution with
  | none => .ok 0
  | some r =>
    if r = "" then .ok 0
    else
      match pyInt? (r.toList.filter (fun c => c ≠ 'p')) with
      | some n => .ok n
      | none => .error "ValueError: invalid literal for int()"

/-- Sort key of audio streams: `int(s.abr.replace('kbps','')) if s.abr
else 0`. -/
def abrKey (s : YtStream) : Except String Int :=
  match s.abr with
  | none => .ok 0
  | some r =>
    if r = "" then .ok 0
    else
      match pyInt? (removeKbps r.toList) with
      | some n => .ok n
      | none => .error "ValueError: invalid literal for int()"

/-- Insert a keyed element into a descending-sorted list, after every element
of greater-or-equal key (so that a stable sort results). -/
def insertDesc (x : Int × YtStream) : List (Int × YtStream) → List (Int × YtStream)
  | [] => [x]
  | y :: ys => if y.1 ≤ x.1 then x :: y :: ys else y :: insertDesc x ys

/-- Stable descending sort by key (insertion sort — extensionally the sort
performed by Python's stable `sorted(..., reverse=True)`). -/
def stableSortDesc (l : List (Int × YtStream)) : List (Int × YtStream) :=
  l.foldr insertDesc []

/-- Python `sorted(l, key=key, reverse=True)`: compute every key (any failure
raises), then sort by descending key, stably. -/
def pySortedDesc (key : YtStream → Except String Int) (l : List YtStream) :
    Except String (List YtStream) :=
  match l.mapM (fun s => (key s).map (fun k => (k, s))) with
  | .error e => .error e
  | .ok ks => .ok ((stableSortDesc ks).map (fun p => p.2))

/-- Embedding of `_get_video_streams_with_ytdlp`: raises a `RuntimeError`
chained `from` the pytube error when yt-dlp is unavailable; otherwise returns
the minimal yt-dlp dictionary, or raises a `RuntimeError` chained `from` the
yt-dlp error. -/
def _get_video_streams_with_ytdlp (env : ResolveEnv) (originalError : String) :
    Except PyErr StreamsDict :=
  if !env.ytdlpAvailable then
    .error { message := "pytube failed to fetch metadata", cause := some originalError }
  else
    match env.ytdlp with
    | .ok title => .ok (.ytdlpDict "yt-dlp" title)
    | .error e =>
      .error { message := "Failed to fetch metadata via yt-dlp", cause := some e }

/-- Embedding of `get_video_streams`: try pytube (resolution plus the three
sorts — a failure anywhere in the `try` block falls through), else the yt-dlp
fallback.  URL normalization, which never raises, happens before the pytube
call and is abstracted into the environment. -/
def get_video_streams (env : ResolveEnv) : Except PyErr StreamsDict :=
  match env.pytube with
  | .error e => _get_video_streams_with_ytdlp env e
  | .ok d =>
    match pySortedDesc resolutionKey d.progressive with
    | .error e => _get_video_streams_with_ytdlp env e
    | .ok prog =>
      match pySortedDesc resolutionKey d.adaptive_video with
      | .error e => _get_video_streams_with_ytdlp env e
      | .ok adap =>
        match pySortedDesc abrKey d.audio with
        | .error e => _get_video_streams_with_ytdlp env e
        | .ok aud => .ok (.pytubeDict "pytube" d.title prog adap aud)

/-! ### The per-item pipeline `_download_one` and the scheduler

Observable effects of one item run: sleeps between retry attempts, invocations
of `per_item_callback` (recorded as the raw positional-argument list — the
code swallows any exception the callback raises, so an invocation never
alters control flow), and progress-file writes. -/

/-- One observable effect of the pipeline. -/
inductive Effect where
  | sleepFor (seconds : ℚ)
  | callback (args : List PyVal)
  | progressWrite (path : String) (data : ProgressData)
deriving Repr, DecidableEq

/-- The parameters of `download_playlist` consulted by `_download_one`,
plus module-level facts (`YTDLP_AVAILABLE`, callback present or `None`). -/
structure PlaylistCfg where
  output_path : String
  resolution_preference : Option String
  audio_only : Bool
  has_callback : Bool
  progress_dir : Option String
  max_retries : Nat
  backoff_factor : ℚ
  ytdlpAvailable : Bool

/-- One chunk callback from a pytube download: raw byte counters plus the
wall-clock time elapsed since the attempt started (feeding `time.time()`). -/
structure ProgressEvent where
  received : Int
  total : Int
  elapsed : ℚ
deriving Repr, DecidableEq

/-- One progress-hook event from a yt-dlp download (the hook reports speed
and ETA itself). -/
structure YtdlpEvent where
  downloaded : Int
  total : Int
  speed : ℚ
  eta : Int
deriving Repr, DecidableEq

/-- Behaviour of one pytube byte transfer: its chunk events, then a final
outcome (path on success, exception message on failure). -/
structure FetchBehavior where
  events : List ProgressEvent
  result : Except String String

/-- Behaviour of one yt-dlp transfer. -/
structure YtdlpFetchBehavior where
  events : List YtdlpEvent
  result : Except String String

/-- Behaviour of the external world during one attempt of `_download_one`. -/
structure AttemptEnv where
  resolve : ResolveEnv
  fetch : FetchBehavior
  ytdlpFetch : YtdlpFetchBehavior

/-- Python `int()` truncation toward zero on a rational. -/
def pyIntTrunc (q : ℚ) : Int :=
  if 0 ≤ q then ⌊q⌋ else ⌈q⌉

/-- The progress-file path used by both per-item callbacks:
`progress_file_for_id(output_path, f'playlist_{index}')`. -/
def playlistProgressPath (cfg : PlaylistCfg) (index : Int) : String :=
  progress_file_for_id cfg.output_path ("playlist_" ++ toString index)

/-- Effects of one `audio_cb(received, total)` invocation. -/
def audioCbEffects (cfg : PlaylistCfg) (url title : String) (index : Int)
    (ev : ProgressEvent) : List Effect :=
  (if cfg.has_callback then
    [Effect.callback [.vs title, .vs "downloading", .vs url, .vi index,
      .vi ev.received, .vi ev.total, .vf 0, .vf 0]]
  else [])
  ++
  (if pyTruthy cfg.progress_dir then
    [Effect.progressWrite (playlistProgressPath cfg index)
      [("title", .vs title), ("status", .vs "downloading"),
       ("downloaded", .vi ev.received), ("total", .vi ev.total)]]
  else [])

/-- Effects of one `video_cb(received, total)` invocation, with the derived
speed and ETA (`elapsed = max(now - start_time, 1e-6)`). -/
def videoCbEffects (cfg : PlaylistCfg) (url title : String) (index : Int)
    (ev : ProgressEvent) : List Effect :=
  let elapsed := max ev.elapsed (1 / 1000000 : ℚ)
  let speed := (ev.received : ℚ) / elapsed
  let eta := if 0 < speed then pyIntTrunc (((ev.total : ℚ) - (ev.received : ℚ)) / speed) else 0
  (if cfg.has_callback then
    [Effect.callback [.vs title, .vs "downloading", .vs url, .vi index,
      .vi ev.received, .vi ev.total, .vf speed, .vi eta]]
  else [])
  ++
  (if pyTruthy cfg.progress_dir then
    [Effect.progressWrite (playlistProgressPath cfg index)
      [("title", .vs title), ("status", .vs "downloading"),
       ("downloaded", .vi ev.received), ("total", .vi ev.total),
       ("speed", .vf speed), ("eta", .vi eta)]]
  else [])

/-- Effects of one `ytdlp_cb(fn, downloaded, total, speed, eta)` invocation
(this callback writes no progress file). -/
def ytdlpCbEffects (cfg : PlaylistCfg) (url title : String) (index : Int)
    (ev : YtdlpEvent) : List Effect :=
  if cfg.has_callback then
    [Effect.callback [.vs title, .vs "downloading", .vs url, .vi index,
      .vi ev.downloaded, .vi ev.total, .vf ev.speed, .vi ev.eta]]
  else []

/-- Outcome of one iteration of the retry loop's `try` block: a `return`
(with the source's `(out, title, status)` triple) or a raised exception. -/
inductive AttemptResult where
  | done (out : Option String) (title status : String)
  | raised (msg : String)
deriving Repr, DecidableEq

/-- Stream selection of the video branch, verbatim from the source: when a
resolution preference is set, the first stream over progressive then
adaptive-video whose `resolution` equals it; when none was picked, the first
progressive stream, else the first adaptive-video stream. -/
def pickVideoStream (pref : Option String) (prog adap : List YtStream) :
    Option YtStream :=
  let fromPref : Option YtStream :=
    match pref with
    | some p => (prog ++ adap).find? (fun s => s.resolution = some p)
    | none => none
  match fromPref with
  | some s => some s
  | none =>
    match prog with
    | s :: _ => some s
    | [] =>
      match adap with
      | s :: _ => some s
      | [] => none

/-- The audio branch of one attempt (after resolution): `'no-audio'` when the
audio list is empty, otherwise download the first audio stream with
`audio_cb` progress, then the completed callback. -/
def attemptAudio (cfg : PlaylistCfg) (url : String) (index : Int)
    (title : String) (audio : List YtStream) (fetch : FetchBehavior) :
    AttemptResult × List Effect :=
  match audio with
  | [] => (.done none title "no-audio", [])
  | _ :: _ =>
    let evEffs := fetch.events.flatMap (audioCbEffects cfg url title index)
    match fetch.result with
    | .ok out =>
      (.done (some out) title "ok",
        evEffs ++
        (if cfg.has_callback then
          [Effect.callback [.vs title, .vs "completed", .vs url, .vi index,
            .vi 0, .vi 0, .vf 0, .vf 0]]
        else []))
    | .error e => (.raised e, evEffs)

/-- The video branch of one attempt (after resolution): stream selection,
pytube download with `video_cb` progress, on download failure the one-shot
yt-dlp fallback when available (whose own failure propagates to the retry
loop), and the completed callback and completed progress write on success. -/
def attemptVideo (cfg : PlaylistCfg) (url : String) (index : Int)
    (title : String) (prog adap : List YtStream)
    (fetch : FetchBehavior) (ytdlpFetch : YtdlpFetchBehavior) :
    AttemptResult × List Effect :=
  match pickVideoStream cfg.resolution_preference prog adap with
  | none => (.done none title "no-stream", [])
  | some _ =>
    let evEffs := fetch.events.flatMap (videoCbEffects cfg url title index)
    let lastReceived : Int := ((fetch.events.map (fun e => e.received)).getLastD 0)
    match fetch.result with
    | .ok out =>
      (.done (some out) title "ok",
        evEffs ++
        (if cfg.has_callback then
          [Effect.callback [.vs title, .vs "completed", .vs url, .vi index,
            .vi lastReceived, .vi 0, .vf 0, .vf 0]]
        else []) ++
        (if pyTruthy cfg.progress_dir then
          [Effect.progressWrite (playlistProgressPath cfg index)
            [("title", .vs title), ("status", .vs "completed"),
             ("downloaded", .vi lastReceived)]]
        else []))
    | .error e =>
      if cfg.ytdlpAvailable then
        let yEffs := ytdlpFetch.events.flatMap (ytdlpCbEffects cfg url title index)
        match ytdlpFetch.result with
        | .ok out =>
          (.done (some out) title "ok",
            evEffs ++ yEffs ++
            (if cfg.has_callback then
              [Effect.callback [.vs title, .vs "completed", .vs url, .vi index,
                .vi 0, .vi 0, .vf 0, .vf 0]]
            else []))
        | .error e2 => (.raised e2, evEffs ++ yEffs)
      else (.raised e, evEffs)

/-- One iteration of the retry loop's `try` block: resolve, then branch on
`audio_only`; indexing a stream list of the yt-dlp dictionary shape raises
`KeyError`. -/
def attemptStep (cfg : PlaylistCfg) (url : String) (index : Int)
    (env : AttemptEnv) : AttemptResult × List Effect :=
  match get_video_streams env.resolve with
  | .error e => (.raised e.message, [])
  | .ok dict =>
    if cfg.audio_only then
      match dict with
      | .ytdlpDict _ _ => (.raised "KeyError: audio", [])
      | .pytubeDict _ title _ _ audio =>
        attemptAudio cfg url index title audio env.fetch
    else
      match dict with
      | .ytdlpDict _ _ => (.raised "KeyError: progressive", [])
      | .pytubeDict _ title prog adap _ =>
        attemptVideo cfg url index title prog adap env.fetch env.ytdlpFetch

/-- The retry loop of `_download_one`, with explicit fuel.  `attempts` counts
failed attempts so far; a raised attempt increments it, returns the tagged
`'error:...'` triple when it exceeds `max_retries`, and otherwise sleeps
`backoff_factor * 2 ** (attempts - 1)` seconds and tries again.  The fuel-0
value corresponds to falling off the `while` loop, which cannot happen from
`attempts = 0` with fuel `max_retries + 1` since `attempts` strictly
increases. -/
def downloadOneLoop (cfg : PlaylistCfg) (url : String) (index : Int)
    (envs : Nat → AttemptEnv) :
    Nat → Nat → (Option String × String × String) × List Effect
  | _, 0 => ((none, "", "loop-exit"), [])
  | attempts, fuel + 1 =>
    match attemptStep cfg url index (envs attempts) with
    | (.done out title status, effs) => ((out, title, status), effs)
    | (.raised msg, effs) =>
      let a := attempts + 1
      if a > cfg.max_retries then
        ((none, url, "error:" ++ msg), effs)
      else
        let st := cfg.backoff_factor * (2 : ℚ) ^ (a - 1)
        let r := downloadOneLoop cfg url index envs a fuel
        (r.1, effs ++ Effect.sleepFor st :: r.2)

/-- Embedding of `_download_one(video_url, index)`: run the retry loop from
zero failed attempts.  The environment `envs k` describes the external world
during the attempt following `k` failures. -/
def _download_one (cfg : PlaylistCfg) (envs : Nat → AttemptEnv)
    (url : String) (index : Int) :
    (Option String × String × String) × List Effect :=
  downloadOneLoop cfg url index envs 0 (cfg.max_retries + 1)

/-- The sleeps of a trace, in order. -/
def sleepsOf (tr : List Effect) : List ℚ :=
  tr.filterMap (fun e => match e with | .sleepFor s => some s | _ => none)

/-- The progress-write paths of a trace, in order. -/
def writePathsOf (tr : List Effect) : List String :=
  tr.filterMap (fun e => match e with | .progressWrite p _ => some p | _ => none)

/-! ### The playlist scheduler `download_playlist` -/

/-- One playlist item as seen by the scheduler: its URL and the behaviour of
the external world for each of its attempts. -/
structure ItemRun where
  url : String
  envs : Nat → AttemptEnv

/-- The record the scheduler keeps for one completed item. -/
structure ItemOutcomeRec where
  url : String
  index : Nat
  out : Option String
  title : String
  status : String
  trace : List Effect

/-- Run the pipeline for one submitted item. -/
def runItem (cfg : PlaylistCfg) (i : Nat) (it : ItemRun) : ItemOutcomeRec :=
  let r := _download_one cfg it.envs it.url (Int.ofNat i)
  { url := it.url, index := i, out := r.1.1, title := r.1.2.1,
    status := r.1.2.2, trace := r.2 }

/-- The per-item results of a playlist run, in submission order. -/
def itemResults (cfg : PlaylistCfg) (items : List ItemRun) : List ItemOutcomeRec :=
  items.enum.map (fun p => runItem cfg p.1 p.2)

/-- The `as_completed` collection step for one finished future: the
scheduler-side callback — invoked with only the four arguments
`(title, status, video_url, index)` — and the append to `downloaded` when the
status is `'ok'` and the output path is truthy. -/
def collectStep (cfg : PlaylistCfg) (acc : List String × List Effect)
    (r : ItemOutcomeRec) : List String × List Effect :=
  let cbEffs := if cfg.has_callback then
      [Effect.callback [.vs r.title, .vs r.status, .vs r.url, .vi (Int.ofNat r.index)]]
    else []
  ((if r.status == "ok" && pyTruthy r.out then acc.1 ++ [r.out.getD ""] else acc.1),
    acc.2 ++ cbEffs)

/-- Embedding of `download_playlist` after playlist enumeration: run every
item, then collect the finished futures in the completion order `order` (a
permutation of the item indices — the worker pool completes them in an
arbitrary order).  Returns the `downloaded` list and the scheduler-side
effect trace. -/
def download_playlist (cfg : PlaylistCfg) (items : List ItemRun)
    (order : List Nat) : List String × List Effect :=
  (order.filterMap (fun i => (itemResults cfg items).get? i)).foldl
    (collectStep cfg) ([], [])

/-! ### Module-level default constants -/

/-- `DEFAULT_MAX_RETRIES = 2`. -/
def DEFAULT_MAX_RETRIES : Nat := 2

/-- `DEFAULT_BACKOFF_FACTOR = 1.5`. -/
def DEFAULT_BACKOFF_FACTOR : ℚ := 3 / 2

/-! ### Concrete scenario inputs used by counterexamples and witnesses -/

/-- A 720p progressive stream. -/
def stream720 : YtStream := { resolution := some "720p", abr := none }

/-- A resolution environment with one 720p progressive stream and title `t`. -/
def resolveOnly720 : ResolveEnv :=
  { pytube := .ok { title := "t", progressive := [stream720],
                    adaptive_video := [], audio := [] },
    ytdlpAvailable := false, ytdlp := .error "unused" }

/-- An attempt during which resolution finds only the 720p stream and the
transfer succeeds at once. -/
def envOnly720 : AttemptEnv :=
  { resolve := resolveOnly720,
    fetch := { events := [], result := .ok "out.mp4" },
    ytdlpFetch := { events := [], result := .error "unused" } }

/-- A configuration requesting 1080p video with the source's defaults. -/
def cfgPrefer1080 : PlaylistCfg :=
  { output_path := "/out", resolution_preference := some "1080p",
    audio_only := false, has_callback := true, progress_dir := none,
    max_retries := DEFAULT_MAX_RETRIES, backoff_factor := DEFAULT_BACKOFF_FACTOR,
    ytdlpAvailable := false }

/-- An attempt whose resolution raises (`boom`), with no fallback available. -/
def envAlwaysRaise : AttemptEnv :=
  { resolve := { pytube := .error "boom", ytdlpAvailable := false,
                 ytdlp := .error "unused" },
    fetch := { events := [], result := .error "unused" },
    ytdlpFetch := { events := [], result := .error "unused" } }

/-- A playlist item whose every attempt raises. -/
def itemAlwaysRaise : ItemRun := { url := "u", envs := fun _ => envAlwaysRaise }

/-- An item that resolves to the 720p stream and downloads successfully. -/
def itemOk720 : ItemRun := { url := "u2", envs := fun _ => envOnly720 }

/-- The four-argument list the scheduler passes to `per_item_callback` when
it collects the always-raising item (source line
`per_item_callback(title, status, video_url_meta, index_meta)`). -/
def schedulerErrorArgs : List PyVal :=
  [.vs "u", .vs "error:pytube failed to fetch metadata", .vs "u", .vi 0]

end PytubeHelper

/-!
## Theorems

One theorem per claim of the specification review, with witnesses for the
hypothesis-bearing ones.
-/

open PytubeHelper ProgressStore

/-- C6: `write_progress_file` followed by `read_progress_file` on the same
path returns the record written; reading a missing, unreadable or corrupt
file returns the empty record and never raises (the read function is total);
`write_progress_file` never raises — on an I/O failure it only logs, leaving
the store unchanged. -/
theorem claim_C6_progress_store_roundtrip :
    (∀ (path : String) (d : ProgressData) (fs : FS),
      read_progress_file path (write_progress_file true path d fs) = d) ∧
    (∀ (path : String) (fs : FS), fs path = none →
      read_progress_file path fs = []) ∧
    (∀ (path : String) (fs : FS), fs path = some .corrupt →
      read_progress_file path fs = []) ∧
    (∀ (ioOk : Bool) (path : String) (d : ProgressData) (fs : FS),
      ioOk = false → write_progress_file ioOk path d fs = fs) := by
  refine ⟨fun path d fs => ?_, fun path fs h => ?_, fun path fs h => ?_,
    fun ioOk path d fs h => ?_⟩
  · simp [read_progress_file, write_progress_file]
  · simp [read_progress_file, h]
  · simp [read_progress_file, h]
  · simp [write_progress_file, h]

/-- Witness for C6 at a concrete path, record and store. -/
theorem claim_C6_witness :
    read_progress_file "/out/.progress/playlist_0.json"
      (write_progress_file true "/out/.progress/playlist_0.json"
        [("status", .vs "ok")] (fun _ => none)) = [("status", .vs "ok")] ∧
    read_progress_file "/missing.json" (fun _ => none) = [] :=
  ⟨claim_C6_progress_store_roundtrip.1 "/out/.progress/playlist_0.json"
      [("status", .vs "ok")] (fun _ => none),
   claim_C6_progress_store_roundtrip.2.1 "/missing.json" (fun _ => none) rfl⟩

/-- C4: the composite resolver tries pytube first and returns a
`'pytube'`-tagged result on success; on any pytube failure it tries the
yt-dlp fallback when available, returning a `'yt-dlp'`-tagged result on
success; when the fallback is unavailable it raises chaining the pytube
cause, and when the fallback also fails it raises chaining the yt-dlp
cause. -/
theorem claim_C4_composite_resolve :
    (∀ (env : ResolveEnv) (d : PytubeStreams) (prog adap aud : List YtStream),
      env.pytube = .ok d →
      pySortedDesc resolutionKey d.progressive = .ok prog →
      pySortedDesc resolutionKey d.adaptive_video = .ok adap →
      pySortedDesc abrKey d.audio = .ok aud →
      get_video_streams env = .ok (.pytubeDict "pytube" d.title prog adap aud)) ∧
    (∀ (env : ResolveEnv) (e t : String),
      env.pytube = .error e → env.ytdlpAvailable = true → env.ytdlp = .ok t →
      get_video_streams env = .ok (.ytdlpDict "yt-dlp" t)) ∧
    (∀ (env : ResolveEnv) (e : String),
      env.pytube = .error e → env.ytdlpAvailable = false →
      ∃ msg, get_video_streams env = .error { message := msg, cause := some e }) ∧
    (∀ (env : ResolveEnv) (e e2 : String),
      env.pytube = .error e → env.ytdlpAvailable = true → env.ytdlp = .error e2 →
      ∃ msg, get_video_streams env = .error { message := msg, cause := some e2 }) := by
  refine ⟨fun env d prog adap aud h hs1 hs2 hs3 => ?_,
    fun env e t h ha hy => ?_, fun env e h ha => ?_, fun env e e2 h ha hy => ?_⟩
  · simp [get_video_streams, h, hs1, hs2, hs3]
  · simp [get_video_streams, _get_video_streams_with_ytdlp, h, ha, hy]
  · exact ⟨"pytube failed to fetch metadata",
      by simp [get_video_streams, _get_video_streams_with_ytdlp, h, ha]⟩
  · exact ⟨"Failed to fetch metadata via yt-dlp",
      by simp [get_video_streams, _get_video_streams_with_ytdlp, h, ha, hy]⟩

/-- Witness for C4: the fallback tag at a concrete environment where pytube
fails and yt-dlp succeeds. -/
theorem claim_C4_witness :
    get_video_streams
      { pytube := .error "HTTP 400", ytdlpAvailable := true, ytdlp := .ok "Title" }
      = .ok (.ytdlpDict "yt-dlp" "Title") :=
  claim_C4_composite_resolve.2.1
    { pytube := .error "HTTP 400", ytdlpAvailable := true, ytdlp := .ok "Title" }
    "HTTP 400" "Title" rfl rfl rfl

/-! ### Helper lemmas about `pyStrip` -/

/-- Membership survives stripping. -/
theorem mem_of_mem_pyStrip {c : Char} {l : List Char} (h : c ∈ pyStrip l) :
    c ∈ l := by
  unfold pyStrip at h
  rw [List.mem_reverse] at h
  have h1 := (List.dropWhile_sublist (l := (l.dropWhile pyIsSpaceChar).reverse)
    (p := pyIsSpaceChar)).subset h
  rw [List.mem_reverse] at h1
  exact (List.dropWhile_sublist (l := l) (p := pyIsSpaceChar)).subset h1

/-- The head of `dropWhile p` fails `p`. -/
theorem head?_dropWhile_false (p : Char → Bool) (l : List Char) :
    ∀ c, (l.dropWhile p).head? = some c → p c = false := by
  induction l with
  | nil => intro c h; simp [List.dropWhile] at h
  | cons a as ih =>
    intro c h
    by_cases ha : p a
    · rw [List.dropWhile_cons_of_pos ha] at h
      exact ih c h
    · rw [List.dropWhile_cons_of_neg ha] at h
      simp at h
      subst h
      simpa using ha

/-- A nonempty `dropWhile` keeps the last element. -/
theorem getLast?_dropWhile (p : Char → Bool) (l : List Char)
    (h : l.dropWhile p ≠ []) : (l.dropWhile p).getLast? = l.getLast? := by
  induction l with
  | nil => simp [List.dropWhile] at h
  | cons a as ih =>
    by_cases ha : p a
    · rw [List.dropWhile_cons_of_pos ha] at h ⊢
      rw [ih h]
      have hne : as ≠ [] := by
        intro hnil; subst hnil; simp [List.dropWhile] at h
      cases as with
      | nil => exact absurd rfl hne
      | cons b bs => exact (List.getLast?_cons_cons).symm
    · rw [List.dropWhile_cons_of_neg ha]

/-- The first character of a stripped string is not whitespace. -/
theorem pyStrip_head?_not_space {l : List Char} {c : Char}
    (h : (pyStrip l).head? = some c) : pyIsSpaceChar c = false := by
  unfold pyStrip at h
  rw [List.head?_reverse] at h
  have hne : (l.dropWhile pyIsSpaceChar).reverse.dropWhile pyIsSpaceChar ≠ [] := by
    intro hnil; rw [hnil] at h; simp at h
  rw [getLast?_dropWhile _ _ hne, List.getLast?_reverse] at h
  exact head?_dropWhile_false _ _ _ h

/-- The last character of a stripped string is not whitespace. -/
theorem pyStrip_getLast?_not_space {l : List Char} {c : Char}
    (h : (pyStrip l).getLast? = some c) : pyIsSpaceChar c = false := by
  unfold pyStrip at h
  rw [List.getLast?_reverse] at h
  exact head?_dropWhile_false _ _ _ h

/-- C9: sanitized filenames contain no path separators (`/` or `\`), carry no
leading or trailing whitespace, are subsequences of their input (characters
are only dropped, never added or reordered), and the two literal examples:
`"Test (2023) - Part 1_Final.mp4"` is unchanged and `"  Test Video  "`
becomes `"Test Video"`. -/
theorem claim_C9_safe_filename :
    (∀ (t : List Char) (c : Char), c ∈ _safe_filename t → c ≠ '/' ∧ c ≠ '\\') ∧
    (∀ (t : List Char) (c : Char),
      (_safe_filename t).head? = some c ∨ (_safe_filename t).getLast? = some c →
      pyIsSpaceChar c = false) ∧
    (∀ t : List Char, (_safe_filename t).Sublist t) ∧
    safeFilenameStr "Test (2023) - Part 1_Final.mp4" = "Test (2023) - Part 1_Final.mp4" ∧
    safeFilenameStr "  Test Video  " = "Test Video" := by
  refine ⟨fun t c h => ?_, fun t c h => ?_, fun t => ?_, by decide, by decide⟩
  · have hmem := mem_of_mem_pyStrip h
    have hp := (List.mem_filter.1 hmem).2
    constructor
    · rintro rfl; simp [pyIsAlnum, SAFE_FILENAME_CHARS] at hp
    · rintro rfl; simp [pyIsAlnum, SAFE_FILENAME_CHARS] at hp
  · rcases h with h | h
    · exact pyStrip_head?_not_space h
    · exact pyStrip_getLast?_not_space h
  · unfold _safe_filename pyStrip
    have h1 : (((t.filter fun c => pyIsAlnum c || SAFE_FILENAME_CHARS.contains c).dropWhile
        pyIsSpaceChar).reverse.dropWhile pyIsSpaceChar).reverse.Sublist
        ((t.filter fun c => pyIsAlnum c || SAFE_FILENAME_CHARS.contains c).dropWhile
          pyIsSpaceChar) := by
      have := (List.dropWhile_sublist (l := ((t.filter fun c =>
        pyIsAlnum c || SAFE_FILENAME_CHARS.contains c).dropWhile
          pyIsSpaceChar).reverse) (p := pyIsSpaceChar)).reverse
      simpa using this
    exact (h1.trans (List.dropWhile_sublist _)).trans (List.filter_sublist _)

/-- Witness for C9 at concrete inputs. -/
theorem claim_C9_witness :
    (('T' : Char) ≠ '/' ∧ ('T' : Char) ≠ '\\') ∧ pyIsSpaceChar 'T' = false :=
  ⟨claim_C9_safe_filename.1 "Test Video".toList 'T' (by decide),
   claim_C9_safe_filename.2.1 "Test Video".toList 'T' (Or.inl (by decide))⟩

/-! ### Helper lemmas for the URL normalizer -/

/-- `splitFirst` finds no separator when none occurs. -/
theorem splitFirst_not_mem {sep : Char} : ∀ {l : List Char}, sep ∉ l →
    splitFirst sep l = (l, none) := by
  intro l
  induction l with
  | nil => intro h; rfl
  | cons c cs ih =>
    intro h
    have hc : ¬c = sep := fun hcc => h (hcc ▸ List.mem_cons_self c cs)
    rw [splitFirst, if_neg hc, ih (fun hm => h (List.mem_cons_of_mem c hm))]

/-- `splitFirst` skips a separator-free prefix. -/
theorem splitFirst_append_not_mem {sep : Char} : ∀ {l1 l2 : List Char}, sep ∉ l1 →
    splitFirst sep (l1 ++ l2) =
      (l1 ++ (splitFirst sep l2).1, (splitFirst sep l2).2) := by
  intro l1
  induction l1 with
  | nil => intro l2 h; simp
  | cons c cs ih =>
    intro l2 h
    have hc : ¬c = sep := fun hcc => h (hcc ▸ List.mem_cons_self c cs)
    rw [List.cons_append, splitFirst, if_neg hc,
      ih (fun hm => h (List.mem_cons_of_mem c hm))]
    rfl

/-- `splitFirst` splits at an explicit first separator. -/
theorem splitFirst_sep_cons {sep : Char} {l1 l2 : List Char} (h : sep ∉ l1) :
    splitFirst sep (l1 ++ sep :: l2) = (l1, some l2) := by
  rw [splitFirst_append_not_mem h, splitFirst, if_pos rfl]
  simp

/-- `takeWhile` passes over a prefix satisfying the predicate. -/
theorem takeWhile_append_all {p : Char → Bool} : ∀ {l1 l2 : List Char}, l1.all p →
    (l1 ++ l2).takeWhile p = l1 ++ l2.takeWhile p := by
  intro l1
  induction l1 with
  | nil => intro l2 _; rfl
  | cons c cs ih =>
    intro l2 h
    rw [List.all_cons, Bool.and_eq_true] at h
    rw [List.cons_append, List.takeWhile_cons_of_pos h.1, ih h.2]
    rfl

/-- `dropWhile` drops a prefix satisfying the predicate. -/
theorem dropWhile_append_all {p : Char → Bool} : ∀ {l1 l2 : List Char}, l1.all p →
    (l1 ++ l2).dropWhile p = l2.dropWhile p := by
  intro l1
  induction l1 with
  | nil => intro l2 _; rfl
  | cons c cs ih =>
    intro l2 h
    rw [List.all_cons, Bool.and_eq_true] at h
    rw [List.cons_append, List.dropWhile_cons_of_pos h.1, ih h.2]

/-- `pySplit` returns one piece when the separator is absent. -/
theorem pySplit_not_mem {sep : Char} : ∀ {l : List Char}, sep ∉ l →
    pySplit sep l = [l] := by
  intro l
  induction l with
  | nil => intro h; rfl
  | cons c cs ih =>
    intro h
    have hc : ¬c = sep := fun hcc => h (hcc ▸ List.mem_cons_self c cs)
    rw [pySplit, if_neg hc, ih (fun hm => h (List.mem_cons_of_mem c hm))]

/-- Plus replacement is the identity without a plus. -/
theorem pyReplacePlus_not_mem {l : List Char} (h : '+' ∉ l) :
    pyReplacePlus l = l := by
  unfold pyReplacePlus
  rw [List.map_congr_left (g := id), List.map_id]
  intro c hc
  have : ¬c = '+' := fun hcc => h (hcc ▸ hc)
  simp [this]

/-- Percent decoding is the identity without a percent sign. -/
theorem pyUnquote_not_mem : ∀ {l : List Char}, '%' ∉ l → pyUnquote l = l := by
  intro l
  induction l with
  | nil => intro h; rfl
  | cons c cs ih =>
    intro h
    have hc : ¬c = '%' := fun hcc => h (hcc ▸ List.mem_cons_self c cs)
    have hcs : '%' ∉ cs := fun hm => h (List.mem_cons_of_mem c hm)
    have hr := ih hcs
    rw [pyUnquote.eq_def]
    split
    all_goals simp_all

/-- When the `youtu.be` branch fires, the normalizer rewrites to the watch
form built from the path. -/
theorem normalize_of_short {url : List Char} (h : isShortLinkForm url = true) :
    normalizeListAux url =
      watchPrefix ++ (pyUrlparse url).path.dropWhile (fun c => c = '/') := by
  unfold isShortLinkForm at h
  rw [Bool.and_eq_true] at h
  have hE := h.1
  have hV : ((pyUrlparse url).path.dropWhile (fun c => c = '/')).isEmpty = false := by
    have := h.2; rwa [Bool.not_eq_true'] at this
  unfold normalizeListAux
  dsimp only
  rw [hE, hV]
  simp

/-- When the `v=` branch fires, the normalizer rewrites to the watch form
built from the first `v` value. -/
theorem normalize_of_vparam {url : List Char} (h : isVParamForm url = true) :
    normalizeListAux url =
      watchPrefix ++ (parse_qs_v (pyUrlparse url).query).headD [] := by
  unfold isVParamForm at h
  rw [Bool.and_eq_true, Bool.and_eq_true] at h
  obtain ⟨⟨hS, hY⟩, hq⟩ := h
  rw [Bool.not_eq_true'] at hS
  unfold isYoutubeHost at hY
  have hqne : parse_qs_v (pyUrlparse url).query ≠ [] := by
    rw [Bool.not_eq_true'] at hq
    simpa using hq
  unfold isShortLinkForm at hS
  unfold normalizeListAux
  dsimp only
  split
  next r heq =>
    exfalso
    split_ifs at heq with hE hV
    rw [hE] at hS
    simp only [Bool.true_and] at hS
    rw [Bool.not_eq_false'] at hS
    exact hV hS
  next heq =>
    rw [if_pos hY]
    cases hq2 : parse_qs_v (pyUrlparse url).query with
    | nil => exact absurd hq2 hqne
    | cons v0 vs => rfl

/-- When the shorts branch fires, the normalizer rewrites to the watch form
built from the segment after `shorts`. -/
theorem normalize_of_shorts {url : List Char} (h : isShortsForm url = true) :
    normalizeListAux url =
      watchPrefix ++ (pySplit '/' (pyUrlparse url).path).getD
        (((pySplit '/' (pyUrlparse url).path).indexOf? "shorts".toList).getD 0 + 1)
        [] := by
  unfold isShortsForm at h
  rw [Bool.and_eq_true, Bool.and_eq_true, Bool.and_eq_true] at h
  obtain ⟨⟨⟨hS, hVp⟩, hY⟩, hidx⟩ := h
  rw [Bool.not_eq_true'] at hS hVp
  unfold isYoutubeHost at hY
  have hq : parse_qs_v (pyUrlparse url).query = [] := by
    unfold isVParamForm at hVp
    rw [hS] at hVp
    unfold isYoutubeHost at hVp
    rw [hY] at hVp
    simp only [Bool.not_false, Bool.true_and, Bool.and_true] at hVp
    rw [Bool.not_eq_false'] at hVp
    simpa using hVp
  unfold isShortLinkForm at hS
  unfold normalizeListAux
  dsimp only
  split
  next r heq =>
    exfalso
    split_ifs at heq with hE hV
    rw [hE] at hS
    simp only [Bool.true_and] at hS
    rw [Bool.not_eq_false'] at hS
    exact hV hS
  next heq =>
    rw [if_pos hY, hq]
    dsimp only
    cases hio : (pySplit '/' (pyUrlparse url).path).indexOf? "shorts".toList with
    | none => rw [hio] at hidx; simp at hidx
    | some idx =>
      rw [hio] at hidx
      dsimp only at hidx
      have hlt := of_decide_eq_true hidx
      dsimp only
      rw [if_pos hlt]
      rfl

/-- When no branch fires, the normalizer returns the input unchanged. -/
theorem normalize_of_none {url : List Char} (h1 : isShortLinkForm url = false)
    (h2 : isVParamForm url = false) (h3 : isShortsForm url = false) :
    normalizeListAux url = url := by
  unfold isShortsForm at h3
  unfold isVParamForm at h2 h3
  unfold isShortLinkForm at h1 h2 h3
  unfold isYoutubeHost at h2 h3
  rw [h1] at h2 h3
  unfold normalizeListAux
  dsimp only
  split
  next r heq =>
    exfalso
    split_ifs at heq with hE hV
    rw [hE] at h1
    simp only [Bool.true_and] at h1
    rw [Bool.not_eq_false'] at h1
    exact hV h1
  next heq =>
    split_ifs with hY
    · rw [hY] at h2 h3
      simp only [Bool.not_false, Bool.true_and, Bool.and_true, Bool.not_true,
        Bool.false_and] at h2 h3
      have hq : parse_qs_v (pyUrlparse url).query = [] := by
        simp only [Bool.not_eq_false'] at h2
        simpa using h2
      rw [hq] at h3 ⊢
      dsimp only
      split
      next idx hio =>
        rw [hio] at h3
        dsimp only at h3
        rw [if_neg]
        intro hlt
        rw [decide_eq_true hlt] at h3
        exact absurd h3 (by simp)
      next => rfl
    · rfl

/-- `pySplitNetloc` on an explicit `//`. -/
theorem pySplitNetloc_slashes (rest : List Char) :
    pySplitNetloc ('/' :: '/' :: rest) =
      (rest.takeWhile (fun c => c ≠ '/' && c ≠ '?' && c ≠ '#'),
       rest.dropWhile (fun c => c ≠ '/' && c ≠ '?' && c ≠ '#')) := rfl

/-- Parsing the canonical watch URL with an appended id free of `#`. -/
theorem urlparse_watch (vid : List Char) (hHash : '#' ∉ vid) :
    pyUrlparse (watchPrefix ++ vid) =
      { netloc := "www.youtube.com".toList, path := "/watch".toList,
        query := "v=".toList ++ vid } := by
  have hsch : pyDropScheme (watchPrefix ++ vid) =
      "//www.youtube.com/watch?v=".toList ++ vid := by
    unfold pyDropScheme
    rw [show watchPrefix ++ vid =
      "https".toList ++ ':' :: ("//www.youtube.com/watch?v=".toList ++ vid) from rfl]
    rw [splitFirst_sep_cons (by decide)]
    rw [show "https".toList = ['h', 't', 't', 'p', 's'] from rfl]
    dsimp only
    rw [if_pos (by decide)]
  have hnet : pySplitNetloc ("//www.youtube.com/watch?v=".toList ++ vid) =
      ("www.youtube.com".toList, "/watch?v=".toList ++ vid) := by
    rw [show "//www.youtube.com/watch?v=".toList ++ vid =
      '/' :: '/' :: ("www.youtube.com".toList ++ '/' :: ("watch?v=".toList ++ vid))
      from rfl]
    rw [pySplitNetloc_slashes]
    rw [takeWhile_append_all (by decide), List.takeWhile_cons_of_neg (by decide),
      dropWhile_append_all (by decide), List.dropWhile_cons_of_neg (by decide)]
    simp
  have hfrag : splitFirst '#' ("/watch?v=".toList ++ vid) =
      ("/watch?v=".toList ++ vid, none) := by
    apply splitFirst_not_mem
    intro hm
    rcases List.mem_append.1 hm with hm | hm
    · simp at hm
    · exact hHash hm
  have hq : splitFirst '?' ("/watch?v=".toList ++ vid) =
      ("/watch".toList, some ("v=".toList ++ vid)) := by
    rw [show "/watch?v=".toList ++ vid =
      "/watch".toList ++ '?' :: ("v=".toList ++ vid) from rfl]
    exact splitFirst_sep_cons (by decide)
  unfold pyUrlparse
  rw [hsch]
  dsimp only
  rw [hnet]
  dsimp only
  rw [hfrag]
  dsimp only
  rw [hq]
  rfl

/-- The `v` values parsed from `v=<vid>` when the id has no query-active
characters. -/
theorem parse_qs_v_watch (vid : List Char) (hAmp : '&' ∉ vid)
    (hPlus : '+' ∉ vid) (hPct : '%' ∉ vid) :
    parse_qs_v ("v=".toList ++ vid) = if vid.isEmpty then [] else [vid] := by
  have hsplit : pySplit '&' ("v=".toList ++ vid) = ["v=".toList ++ vid] := by
    apply pySplit_not_mem
    intro hm
    rcases List.mem_append.1 hm with hm | hm
    · simp at hm
    · exact hAmp hm
  have heq : splitFirst '=' ("v=".toList ++ vid) = (['v'], some vid) := by
    rw [show "v=".toList ++ vid = ['v'] ++ '=' :: vid from rfl]
    exact splitFirst_sep_cons (by decide)
  unfold parse_qs_v parse_qsl
  rw [hsplit]
  rw [List.filterMap_cons]
  cases hvid : vid.isEmpty with
  | true =>
    have : vid = [] := by simpa using hvid
    subst this
    rfl
  | false =>
    have hne : ("v=".toList ++ vid).isEmpty = false := by
      simp
    rw [hne]
    simp only [Bool.false_eq_true, if_false]
    rw [heq]
    dsimp only
    rw [hvid]
    simp only [Bool.false_eq_true, if_false]
    rw [show pyReplacePlus ['v'] = ['v'] from rfl,
      show pyUnquote ['v'] = ['v'] from rfl,
      pyReplacePlus_not_mem hPlus, pyUnquote_not_mem hPct]
    simp

/-- Normalizing the canonical watch URL with a query-safe id is the
identity. -/
theorem normalize_watch (vid : List Char) (h : querySafeId vid = true) :
    normalizeListAux (watchPrefix ++ vid) = watchPrefix ++ vid := by
  have hAll := (List.all_eq_true).1 h
  have hAmp : '&' ∉ vid := fun hm => by have := hAll _ hm; simp at this
  have hPlus : '+' ∉ vid := fun hm => by have := hAll _ hm; simp at this
  have hHash : '#' ∉ vid := fun hm => by have := hAll _ hm; simp at this
  have hPct : '%' ∉ vid := fun hm => by have := hAll _ hm; simp at this
  have hp := urlparse_watch vid hHash
  have hqs := parse_qs_v_watch vid hAmp hPlus hPct
  cases hv : vid.isEmpty with
  | true =>
    have : vid = [] := by simpa using hv
    subst this
    rw [List.append_nil]
    decide
  | false =>
    have hS : isShortLinkForm (watchPrefix ++ vid) = false := by
      unfold isShortLinkForm
      rw [hp]
      dsimp only
      decide
    have hVP : isVParamForm (watchPrefix ++ vid) = true := by
      unfold isVParamForm
      rw [hS]
      unfold isYoutubeHost
      rw [hp]
      dsimp only
      rw [hqs, hv]
      simp only [Bool.false_eq_true, if_false]
      rw [show pyEndsWith "www.youtube.com".toList "youtube.com".toList = true from rfl]
      simp
    rw [normalize_of_vparam hVP, hp]
    dsimp only
    rw [hqs, hv]
    simp only [Bool.false_eq_true, if_false, List.headD_cons]

/-- C7 counterexample: normalization is not idempotent on every string — for
`https://youtu.be/a+b` the first pass yields `...watch?v=a+b`, and a second
pass re-parses the query, decoding `+` to a space. -/
theorem claim_C7_counterexample :
    _normalize_video_url "https://youtu.be/a+b" = "https://www.youtube.com/watch?v=a+b" ∧
    _normalize_video_url "https://www.youtube.com/watch?v=a+b" =
      "https://www.youtube.com/watch?v=a b" ∧
    _normalize_video_url (_normalize_video_url "https://youtu.be/a+b") ≠
      _normalize_video_url "https://youtu.be/a+b" := by
  refine ⟨by decide, by decide, by decide⟩

/-- C7 (amended): normalization is idempotent for every input whose extracted
video id (when a rewrite happens at all) contains none of the query-active
characters `&`, `+`, `#`, `%`; in particular for every input returned
unchanged.  (For ids with such characters a second application can rewrite
further, as the counterexample shows.) -/
theorem claim_C7_normalize_idempotent_amended :
    ∀ url : List Char,
      (∀ vid, extractedId url = some vid → querySafeId vid = true) →
      normalizeListAux (normalizeListAux url) = normalizeListAux url := by
  intro url hsafe
  by_cases hS : isShortLinkForm url
  · have hvid := hsafe ((pyUrlparse url).path.dropWhile (fun c => c = '/'))
      (by simp [extractedId, hS])
    rw [normalize_of_short hS]
    exact normalize_watch _ hvid
  · by_cases hV : isVParamForm url
    · have hvid := hsafe ((parse_qs_v (pyUrlparse url).query).headD [])
        (by simp [extractedId, hS, hV])
      rw [normalize_of_vparam hV]
      exact normalize_watch _ hvid
    · by_cases hSh : isShortsForm url
      · have hvid := hsafe ((pySplit '/' (pyUrlparse url).path).getD
            (((pySplit '/' (pyUrlparse url).path).indexOf? "shorts".toList).getD 0 + 1) [])
          (by simp [extractedId, hS, hV, hSh])
        rw [normalize_of_shorts hSh]
        exact normalize_watch _ hvid
      · have h1 : isShortLinkForm url = false := by simpa using hS
        have h2 : isVParamForm url = false := by simpa using hV
        have h3 : isShortsForm url = false := by simpa using hSh
        rw [normalize_of_none h1 h2 h3, normalize_of_none h1 h2 h3]

/-- Witness for the amended C7 at a concrete short link. -/
theorem claim_C7_witness :
    normalizeListAux (normalizeListAux "https://youtu.be/dQw4w9WgXcQ".toList) =
      normalizeListAux "https://youtu.be/dQw4w9WgXcQ".toList :=
  claim_C7_normalize_idempotent_amended "https://youtu.be/dQw4w9WgXcQ".toList
    (fun vid hv => by
      have hx : extractedId "https://youtu.be/dQw4w9WgXcQ".toList =
          some "dQw4w9WgXcQ".toList := by decide
      rw [hx] at hv
      injection hv with hv
      subst hv
      decide)

/-- C8: URL normalization is total (a Lean function by construction — the
source catches every exception and returns the input); the three canonical
rewrite examples hold literally, and any input matching none of the three
rewrite forms is returned unchanged. -/
theorem claim_C8_normalize_total :
    _normalize_video_url "https://youtu.be/dQw4w9WgXcQ" =
      "https://www.youtube.com/watch?v=dQw4w9WgXcQ" ∧
    _normalize_video_url "https://www.youtube.com/watch?v=dQw4w9WgXcQ&si=xyz&feature=share" =
      "https://www.youtube.com/watch?v=dQw4w9WgXcQ" ∧
    _normalize_video_url "https://www.youtube.com/shorts/dQw4w9WgXcQ" =
      "https://www.youtube.com/watch?v=dQw4w9WgXcQ" ∧
    (∀ url : List Char, isShortLinkForm url = false → isVParamForm url = false →
      isShortsForm url = false → normalizeListAux url = url) :=
  ⟨by decide, by decide, by decide, fun _ h1 h2 h3 => normalize_of_none h1 h2 h3⟩

/-- Witness for C8 on a concrete unparseable input. -/
theorem claim_C8_witness :
    normalizeListAux "not a valid url".toList = "not a valid url".toList :=
  claim_C8_normalize_total.2.2.2 "not a valid url".toList
    (by decide) (by decide) (by decide)

/-! ### Helper lemmas for the retry loop -/

/-- Membership in a conditional singleton. -/
theorem mem_if_singleton {α : Type} {c : Prop} [Decidable c] {x e : α}
    (h : e ∈ (if c then [x] else [])) : e = x := by
  split at h
  · simpa using h
  · simp at h

/-- `sleepsOf` distributes over append. -/
theorem sleepsOf_append (a b : List Effect) :
    sleepsOf (a ++ b) = sleepsOf a ++ sleepsOf b := by
  unfold sleepsOf
  exact List.filterMap_append a b _

/-- Effects emitted by the callback helpers are never sleeps: audio. -/
theorem audioCbEffects_no_sleep (cfg : PlaylistCfg) (url title : String)
    (index : Int) (ev : ProgressEvent) :
    ∀ e ∈ audioCbEffects cfg url title index ev, ∀ q, e ≠ Effect.sleepFor q := by
  intro e he q
  unfold audioCbEffects at he
  rcases List.mem_append.1 he with h | h <;>
    (rw [mem_if_singleton h]; intro hx; cases hx)

/-- Effects emitted by the callback helpers are never sleeps: video. -/
theorem videoCbEffects_no_sleep (cfg : PlaylistCfg) (url title : String)
    (index : Int) (ev : ProgressEvent) :
    ∀ e ∈ videoCbEffects cfg url title index ev, ∀ q, e ≠ Effect.sleepFor q := by
  intro e he q
  unfold videoCbEffects at he
  rcases List.mem_append.1 he with h | h <;>
    (rw [mem_if_singleton h]; intro hx; cases hx)

/-- Effects emitted by the callback helpers are never sleeps: yt-dlp. -/
theorem ytdlpCbEffects_no_sleep (cfg : PlaylistCfg) (url title : String)
    (index : Int) (ev : YtdlpEvent) :
    ∀ e ∈ ytdlpCbEffects cfg url title index ev, ∀ q, e ≠ Effect.sleepFor q := by
  intro e he q
  unfold ytdlpCbEffects at he
  rw [mem_if_singleton he]
  intro hx; cases hx

/-- One attempt never sleeps (sleeping happens only between attempts, in the
retry loop itself). -/
theorem attemptStep_no_sleep (cfg : PlaylistCfg) (url : String) (index : Int)
    (env : AttemptEnv) :
    ∀ e ∈ (attemptStep cfg url index env).2, ∀ q, e ≠ Effect.sleepFor q := by
  intro e he q
  unfold attemptStep at he
  split at he
  · simp at he
  · split at he
    · split at he
      · simp at he
      · unfold attemptAudio at he
        split at he
        · simp at he
        · split at he
          · rcases List.mem_append.1 he with h | h
            · rcases List.mem_flatMap.1 h with ⟨ev, _, hmem⟩
              exact audioCbEffects_no_sleep cfg url _ index ev e hmem q
            · rw [mem_if_singleton h]; intro hx; cases hx
          · rcases List.mem_flatMap.1 he with ⟨ev, _, hmem⟩
            exact audioCbEffects_no_sleep cfg url _ index ev e hmem q
    · split at he
      · simp at he
      · unfold attemptVideo at he
        split at he
        · simp at he
        · split at he
          · rcases List.mem_append.1 he with h | h
            · rcases List.mem_append.1 h with h' | h'
              · rcases List.mem_flatMap.1 h' with ⟨ev, _, hmem⟩
                exact videoCbEffects_no_sleep cfg url _ index ev e hmem q
              · rw [mem_if_singleton h']; intro hx; cases hx
            · rw [mem_if_singleton h]; intro hx; cases hx
          · split at he
            · split at he
              · rcases List.mem_append.1 he with h | h
                · rcases List.mem_append.1 h with h' | h'
                  · rcases List.mem_flatMap.1 h' with ⟨ev, _, hmem⟩
                    exact videoCbEffects_no_sleep cfg url _ index ev e hmem q
                  · rcases List.mem_flatMap.1 h' with ⟨ev, _, hmem⟩
                    exact ytdlpCbEffects_no_sleep cfg url _ index ev e hmem q
                · rw [mem_if_singleton h]; intro hx; cases hx
              · rcases List.mem_append.1 he with h | h
                · rcases List.mem_flatMap.1 h with ⟨ev, _, hmem⟩
                  exact videoCbEffects_no_sleep cfg url _ index ev e hmem q
                · rcases List.mem_flatMap.1 h with ⟨ev, _, hmem⟩
                  exact ytdlpCbEffects_no_sleep cfg url _ index ev e hmem q
            · rcases List.mem_flatMap.1 he with ⟨ev, _, hmem⟩
              exact videoCbEffects_no_sleep cfg url _ index ev e hmem q

/-- `sleepsOf` of an attempt trace is empty. -/
theorem sleepsOf_attemptStep (cfg : PlaylistCfg) (url : String) (index : Int)
    (env : AttemptEnv) : sleepsOf (attemptStep cfg url index env).2 = [] := by
  unfold sleepsOf
  rw [List.filterMap_eq_nil_iff]
  intro e he
  have := attemptStep_no_sleep cfg url index env e he
  cases e with
  | sleepFor q => exact absurd rfl (this q)
  | callback args => rfl
  | progressWrite p d => rfl

/-- The retry loop when every attempt raises: the loop returns the tagged
error triple for the last message and its trace interleaves the attempt
traces with the backoff sleeps `backoff_factor * 2 ** k`. -/
theorem downloadOneLoop_allFail (cfg : PlaylistCfg) (url : String) (idx : Int)
    (envs : Nat → AttemptEnv) (msg : Nat → String)
    (h : ∀ k, k ≤ cfg.max_retries → (attemptStep cfg url idx (envs k)).1 = .raised (msg k)) :
    ∀ fuel a, a + fuel = cfg.max_retries + 1 → 0 < fuel →
      downloadOneLoop cfg url idx envs a fuel =
        ((none, url, "error:" ++ msg cfg.max_retries),
         (List.range' a fuel).flatMap (fun k =>
           (attemptStep cfg url idx (envs k)).2 ++
           (if k < cfg.max_retries then
             [Effect.sleepFor (cfg.backoff_factor * (2 : ℚ) ^ k)] else []))) := by
  intro fuel
  induction fuel with
  | zero => intro a _ hpos; exact absurd hpos (by simp)
  | succ f ih =>
    intro a ha _
    have haLe : a ≤ cfg.max_retries := by omega
    have hstep := h a haLe
    rw [downloadOneLoop]
    rcases hres : attemptStep cfg url idx (envs a) with ⟨r, effs⟩
    rw [hres] at hstep
    dsimp at hstep
    subst hstep
    dsimp only
    by_cases hlast : a + 1 > cfg.max_retries
    · have haEq : a = cfg.max_retries := by omega
      have hf : f = 0 := by omega
      subst hf
      rw [if_pos hlast]
      subst haEq
      simp [List.range', hres]
    · rw [if_neg hlast]
      have hf : 0 < f := by omega
      have ha' : (a + 1) + f = cfg.max_retries + 1 := by omega
      rw [ih (a + 1) ha' hf]
      have hran : List.range' a (f + 1) = a :: List.range' (a + 1) f := by
        simp [List.range']
      rw [hran, List.flatMap_cons, hres]
      have hlt : a < cfg.max_retries := by omega
      rw [if_pos hlt]
      simp

/-- The retry loop consults only the environments of attempts it reaches:
attempts `a` through `max_retries`. -/
theorem downloadOneLoop_env_congr (cfg : PlaylistCfg) (url : String) (idx : Int)
    (envs envs' : Nat → AttemptEnv) :
    ∀ fuel a, a + fuel = cfg.max_retries + 1 →
      (∀ k, a ≤ k → k ≤ cfg.max_retries → envs k = envs' k) →
      downloadOneLoop cfg url idx envs a fuel =
        downloadOneLoop cfg url idx envs' a fuel := by
  intro fuel
  induction fuel with
  | zero => intro a _ _; rfl
  | succ f ih =>
    intro a ha hk
    have haLe : a ≤ cfg.max_retries := by omega
    rw [downloadOneLoop, downloadOneLoop, hk a le_rfl haLe]
    rcases hres : attemptStep cfg url idx (envs' a) with ⟨r, effs⟩
    cases r with
    | done out title status => rfl
    | raised m =>
      dsimp only
      by_cases hlast : a + 1 > cfg.max_retries
      · rw [if_pos hlast, if_pos hlast]
      · rw [if_neg hlast, if_neg hlast]
        have := ih (a + 1) (by omega) (fun k hk1 hk2 => hk k (by omega) hk2)
        rw [this]

/-- A first attempt that returns is the whole of `_download_one`. -/
theorem downloadOne_of_first_done {cfg : PlaylistCfg} {url : String} {idx : Int}
    {envs : Nat → AttemptEnv} {out : Option String} {t s : String}
    {e : List Effect}
    (h : attemptStep cfg url idx (envs 0) = (AttemptResult.done out t s, e)) :
    _download_one cfg envs url idx = ((out, t, s), e) := by
  unfold _download_one
  rw [downloadOneLoop, h]

/-- `sleepsOf` over a `flatMap`. -/
theorem sleepsOf_flatMap {α : Type} (l : List α) (f : α → List Effect) :
    sleepsOf (l.flatMap f) = l.flatMap (fun x => sleepsOf (f x)) := by
  induction l with
  | nil => rfl
  | cons a as ih => rw [List.flatMap_cons, List.flatMap_cons, sleepsOf_append, ih]

/-- Congruence of `flatMap` over members. -/
theorem flatMap_congr_mem {α β : Type} {l : List α} {f g : α → List β}
    (h : ∀ x ∈ l, f x = g x) : l.flatMap f = l.flatMap g := by
  induction l with
  | nil => rfl
  | cons a as ih =>
    rw [List.flatMap_cons, List.flatMap_cons, h a (List.mem_cons_self a as),
      ih (fun x hx => h x (List.mem_cons_of_mem a hx))]

/-- `flatMap` of singletons is `map`. -/
theorem flatMap_singleton_map {α β : Type} (l : List α) (f : α → β) :
    l.flatMap (fun x => [f x]) = l.map f := by
  induction l with
  | nil => rfl
  | cons a as ih => rw [List.flatMap_cons, List.map_cons, ih]; rfl

/-- The sleep schedule of `max_retries + 1` failing attempts. -/
theorem flatMap_sleep_schedule (n : Nat) (s : Nat → ℚ) :
    (List.range (n + 1)).flatMap (fun k => if k < n then [s k] else []) =
      (List.range n).map s := by
  rw [List.range_succ, List.flatMap_append]
  have h1 : (List.range n).flatMap (fun k => if k < n then [s k] else []) =
      (List.range n).flatMap (fun k => [s k]) := by
    apply flatMap_congr_mem
    intro x hx
    rw [if_pos (List.mem_range.1 hx)]
  rw [h1, flatMap_singleton_map]
  simp

/-- C2: when every attempt of an item raises, the retry loop makes exactly
`max_retries + 1` attempts — the result is the tagged `'error:<last message>'`
triple, it never consults an environment beyond attempt `max_retries`, and
the sleeps between attempts are exactly `backoff_factor * 2 ** k` for
`k = 0 .. max_retries - 1` (`attempt - 1` for the attempt counter starting at
1); with the defaults (`max_retries = 2`, `backoff_factor = 1.5`) the sleeps
are 1.5s then 3s.  Terminal non-match outcomes (`'no-audio'`, `'no-stream'`)
returned by the first attempt end the loop at once with no sleep. -/
theorem claim_C2_retry_backoff :
    (∀ (cfg : PlaylistCfg) (envs : Nat → AttemptEnv) (url : String) (idx : Int)
       (msg : Nat → String),
      (∀ k, k ≤ cfg.max_retries →
        (attemptStep cfg url idx (envs k)).1 = .raised (msg k)) →
      (_download_one cfg envs url idx).1 =
        (none, url, "error:" ++ msg cfg.max_retries) ∧
      sleepsOf (_download_one cfg envs url idx).2 =
        (List.range cfg.max_retries).map
          (fun k => cfg.backoff_factor * (2 : ℚ) ^ k) ∧
      (∀ envs', (∀ k, k ≤ cfg.max_retries → envs' k = envs k) →
        _download_one cfg envs' url idx = _download_one cfg envs url idx)) ∧
    (∀ (cfg : PlaylistCfg) (envs : Nat → AttemptEnv) (url : String) (idx : Int)
       (out : Option String) (t s : String) (e : List Effect),
      attemptStep cfg url idx (envs 0) = (AttemptResult.done out t s, e) →
      s = "no-audio" ∨ s = "no-stream" →
      _download_one cfg envs url idx = ((out, t, s), e) ∧ sleepsOf e = []) ∧
    DEFAULT_MAX_RETRIES = 2 ∧
    (List.range DEFAULT_MAX_RETRIES).map
      (fun k => DEFAULT_BACKOFF_FACTOR * (2 : ℚ) ^ k) = [3 / 2, 3] := by
  refine ⟨fun cfg envs url idx msg h => ?_, fun cfg envs url idx out t s e h _ => ?_,
    rfl, ?_⟩
  · have hall := downloadOneLoop_allFail cfg url idx envs msg h
      (cfg.max_retries + 1) 0 (by omega) (by omega)
    unfold _download_one
    refine ⟨by rw [hall], ?_, ?_⟩
    · rw [hall]
      dsimp only
      rw [sleepsOf_flatMap]
      have hz : List.range' 0 (cfg.max_retries + 1) = List.range (cfg.max_retries + 1) := by
        rw [List.range_eq_range']
      rw [hz]
      have hcongr : (List.range (cfg.max_retries + 1)).flatMap
          (fun k => sleepsOf ((attemptStep cfg url idx (envs k)).2 ++
            (if k < cfg.max_retries then
              [Effect.sleepFor (cfg.backoff_factor * (2 : ℚ) ^ k)] else []))) =
          (List.range (cfg.max_retries + 1)).flatMap
          (fun k => if k < cfg.max_retries then
              [cfg.backoff_factor * (2 : ℚ) ^ k] else []) := by
        apply flatMap_congr_mem
        intro k _
        rw [sleepsOf_append, sleepsOf_attemptStep]
        split <;> rfl
      rw [hcongr, flatMap_sleep_schedule]
    · intro envs' hk
      exact downloadOneLoop_env_congr cfg url idx envs' envs
        (cfg.max_retries + 1) 0 (by omega) (fun k _ hk2 => hk k hk2)
  · refine ⟨downloadOne_of_first_done h, ?_⟩
    have := sleepsOf_attemptStep cfg url idx (envs 0)
    rw [h] at this
    exact this
  · rw [show DEFAULT_MAX_RETRIES = 2 from rfl]
    rw [show List.range 2 = [0, 1] from rfl]
    rw [List.map_cons, List.map_cons, List.map_nil]
    norm_num [DEFAULT_BACKOFF_FACTOR]

/-- Witness for C2: with the default configuration and resolution failing on
every attempt, the item ends `'error:boom'` after sleeps of exactly 1.5s and
3s, and a first-attempt `'no-stream'` ends with no sleep. -/
theorem claim_C2_witness :
    (_download_one cfgPrefer1080 (fun _ => envAlwaysRaise) "u" 0).1 =
      (none, "u", "error:" ++ "pytube failed to fetch metadata") ∧
    sleepsOf (_download_one cfgPrefer1080 (fun _ => envAlwaysRaise) "u" 0).2 =
      (List.range cfgPrefer1080.max_retries).map
        (fun k => cfgPrefer1080.backoff_factor * (2 : ℚ) ^ k) :=
  ⟨((claim_C2_retry_backoff.1 cfgPrefer1080 (fun _ => envAlwaysRaise) "u" 0
      (fun _ => "pytube failed to fetch metadata") (fun k _ => by
        show (attemptStep cfgPrefer1080 "u" 0 envAlwaysRaise).1 =
          AttemptResult.raised "pytube failed to fetch metadata"
        decide)).1),
   ((claim_C2_retry_backoff.1 cfgPrefer1080 (fun _ => envAlwaysRaise) "u" 0
      (fun _ => "pytube failed to fetch metadata") (fun k _ => by
        show (attemptStep cfgPrefer1080 "u" 0 envAlwaysRaise).1 =
          AttemptResult.raised "pytube failed to fetch metadata"
        decide)).2.1)⟩

/-- C1 counterexample: with `resolution_preference = '1080p'` and only a 720p
progressive candidate, the pipeline does not fail with the terminal
`'no-stream'` outcome — it selects the non-matching 720p candidate and
completes with `'ok'`. -/
theorem claim_C1_counterexample :
    pickVideoStream (some "1080p") [stream720] [] = some stream720 ∧
    stream720.resolution ≠ some "1080p" ∧
    (_download_one cfgPrefer1080 (fun _ => envOnly720) "u" 0).1 =
      (some "out.mp4", "t", "ok") ∧
    ("ok" : String) ≠ "no-stream" :=
  ⟨by decide, by decide, by decide, by decide⟩

/-- C1 (amended): with a resolution preference, the pipeline selects the
first candidate over progressive then adaptive-video whose resolution exactly
matches; when no candidate matches it falls back to the first progressive
candidate, else the first adaptive-video candidate; only when there are no
candidates at all does the item end with the terminal `'no-stream'` outcome,
on the first attempt, without retry and with an empty trace. -/
theorem claim_C1_selection_amended :
    (∀ (pref : String) (prog adap : List YtStream) (s : YtStream),
      (prog ++ adap).find? (fun st => st.resolution = some pref) = some s →
      pickVideoStream (some pref) prog adap = some s) ∧
    (∀ (pref : String) (prog adap : List YtStream),
      (prog ++ adap).find? (fun st => st.resolution = some pref) = none →
      pickVideoStream (some pref) prog adap = (prog ++ adap).head?) ∧
    (∀ (cfg : PlaylistCfg) (envs : Nat → AttemptEnv) (url : String) (idx : Int)
       (t : String) (au sortedAu : List YtStream),
      cfg.audio_only = false →
      (envs 0).resolve.pytube =
        .ok { title := t, progressive := [], adaptive_video := [], audio := au } →
      pySortedDesc abrKey au = .ok sortedAu →
      _download_one cfg envs url idx = ((none, t, "no-stream"), [])) := by
  refine ⟨fun pref prog adap s h => ?_, fun pref prog adap h => ?_,
    fun cfg envs url idx t au sortedAu hao hres hsort => ?_⟩
  · unfold pickVideoStream
    dsimp only
    rw [h]
  · unfold pickVideoStream
    dsimp only
    rw [h]
    cases prog with
    | cons p ps => rfl
    | nil =>
      cases adap with
      | nil => rfl
      | cons a as => rfl
  · have hstep : attemptStep cfg url idx (envs 0) =
        (AttemptResult.done none t "no-stream", []) := by
      unfold attemptStep get_video_streams
      rw [hres]
      dsimp only
      rw [show pySortedDesc resolutionKey ([] : List YtStream) = .ok [] from rfl]
      rw [hsort]
      dsimp only
      rw [hao]
      simp only [Bool.false_eq_true, if_false]
      unfold attemptVideo
      have hpick : pickVideoStream cfg.resolution_preference [] [] = none := by
        unfold pickVideoStream
        cases cfg.resolution_preference <;> rfl
      rw [hpick]
    exact downloadOne_of_first_done hstep

/-- Witness for the amended C1 at concrete inputs: the exact match is chosen
when present, the highest-ranked candidate otherwise, and an empty candidate
set yields `'no-stream'` at once. -/
theorem claim_C1_witness :
    pickVideoStream (some "720p") [stream720] [] = some stream720 ∧
    pickVideoStream (some "1080p") [stream720] [] = ([stream720] ++ []).head? ∧
    _download_one cfgPrefer1080
      (fun _ =>
        { resolve := { pytube := .ok { title := "t", progressive := [],
                                       adaptive_video := [], audio := [] },
                       ytdlpAvailable := false, ytdlp := .error "unused" },
          fetch := { events := [], result := .error "unused" },
          ytdlpFetch := { events := [], result := .error "unused" } })
      "u" 0 = ((none, "t", "no-stream"), []) :=
  ⟨claim_C1_selection_amended.1 "720p" [stream720] [] stream720 (by decide),
   claim_C1_selection_amended.2.1 "1080p" [stream720] [] (by decide),
   claim_C1_selection_amended.2.2 cfgPrefer1080 _ "u" 0 "t" [] [] rfl rfl rfl⟩

/-- Congruence of `filterMap` over members. -/
theorem filterMap_congr_mem {α β : Type} {l : List α} {f g : α → Option β}
    (h : ∀ x ∈ l, f x = g x) : l.filterMap f = l.filterMap g := by
  induction l with
  | nil => rfl
  | cons a as ih =>
    rw [List.filterMap_cons, List.filterMap_cons, h a (List.mem_cons_self a as),
      ih (fun x hx => h x (List.mem_cons_of_mem a hx))]

/-- Looking up every index of a list in order reproduces the list. -/
theorem range_filterMap_get {α : Type} (l : List α) :
    (List.range l.length).filterMap (fun i => l.get? i) = l := by
  induction l using List.reverseRecOn with
  | nil => rfl
  | append_singleton l a ih =>
    rw [List.length_append, List.length_singleton, List.range_succ,
      List.filterMap_append]
    have h1 : (List.range l.length).filterMap (fun i => (l ++ [a]).get? i) =
        (List.range l.length).filterMap (fun i => l.get? i) := by
      apply filterMap_congr_mem
      intro i hi
      exact List.get?_append (List.mem_range.1 hi)
    have h2 : (l ++ [a]).get? l.length = some a := by
      rw [List.get?_append_right (le_refl _)]
      simp
    rw [h1, ih]
    simp [h2]

/-- The `as_completed` collection fold, in closed form: the `downloaded`
accumulator extends by the ok outputs and the scheduler trace by one
four-argument callback per collected item. -/
theorem collect_foldl (cfg : PlaylistCfg) :
    ∀ (l : List ItemOutcomeRec) (acc : List String × List Effect),
      l.foldl (collectStep cfg) acc =
        (acc.1 ++ l.filterMap (fun r =>
            if r.status == "ok" && pyTruthy r.out then some (r.out.getD "")
            else none),
         acc.2 ++ l.flatMap (fun r =>
            if cfg.has_callback then
              [Effect.callback [.vs r.title, .vs r.status, .vs r.url,
                .vi (Int.ofNat r.index)]]
            else [])) := by
  intro l
  induction l with
  | nil => intro acc; simp
  | cons r rs ih =>
    intro acc
    rw [List.foldl_cons, ih]
    unfold collectStep
    rw [List.filterMap_cons, List.flatMap_cons]
    by_cases hc : (r.status == "ok" && pyTruthy r.out) = true <;>
      simp [hc, List.append_assoc]

/-- The ok-filter of the pick function, when every ok item has a truthy
output path. -/
theorem filterMap_pick_eq (l : List ItemOutcomeRec)
    (h : ∀ r ∈ l, r.status = "ok" → pyTruthy r.out = true) :
    l.filterMap (fun r =>
        if r.status == "ok" && pyTruthy r.out then some (r.out.getD "")
        else none) =
      (l.filter (fun r => r.status == "ok")).map (fun r => r.out.getD "") := by
  induction l with
  | nil => rfl
  | cons r rs ih =>
    rw [List.filterMap_cons, List.filter_cons]
    have ih' := ih (fun x hx => h x (List.mem_cons_of_mem r hx))
    by_cases hs : (r.status == "ok") = true
    · have ht := h r (List.mem_cons_self r rs) (by simpa using hs)
      have hcond : (r.status == "ok" && pyTruthy r.out) = true := by
        simp [hs, ht]
      rw [hcond, if_pos hs]
      simp only [eq_self_iff_true, if_true]
      rw [List.map_cons, ih']
    · have hs' : (r.status == "ok") = false := by
        rwa [Bool.not_eq_true] at hs
      have hcond : (r.status == "ok" && pyTruthy r.out) = false := by
        rw [Bool.and_eq_false_iff]
        exact Or.inl hs'
      rw [hcond, if_neg hs]
      simp only [Bool.false_eq_true, if_false]
      exact ih'

/-- C3: an item that exhausts its retries yields the tagged
`'error:<message>'` status (the pipeline returns, rather than raising); for
any completion order that is a permutation of the item indices the scheduler
processes every item (one terminal scheduler callback per item — the run
never aborts early), and `download_playlist` returns exactly the output
paths of the items whose terminal status is `'ok'`. -/
theorem claim_C3_playlist_partial_failure :
    (∀ (cfg : PlaylistCfg) (envs : Nat → AttemptEnv) (url : String) (idx : Int)
       (msg : Nat → String),
      (∀ k, k ≤ cfg.max_retries →
        (attemptStep cfg url idx (envs k)).1 = .raised (msg k)) →
      (_download_one cfg envs url idx).1.2.2 = "error:" ++ msg cfg.max_retries) ∧
    (∀ (cfg : PlaylistCfg) (items : List ItemRun) (order : List Nat),
      order.Perm (List.range items.length) →
      (∀ r ∈ itemResults cfg items, r.status = "ok" → pyTruthy r.out = true) →
      (download_playlist cfg items order).1.Perm
        (((itemResults cfg items).filter (fun r => r.status == "ok")).map
          (fun r => r.out.getD "")) ∧
      (cfg.has_callback = true →
        (download_playlist cfg items order).2.length = items.length)) := by
  constructor
  · intro cfg envs url idx msg h
    rw [show _download_one cfg envs url idx =
      downloadOneLoop cfg url idx envs 0 (cfg.max_retries + 1) from rfl]
    rw [downloadOneLoop_allFail cfg url idx envs msg h (cfg.max_retries + 1) 0
      (by omega) (by omega)]
  · intro cfg items order hperm hok
    have hlen : (itemResults cfg items).length = items.length := by
      unfold itemResults
      rw [List.length_map, List.enum_length]
    have hcoll : (order.filterMap (fun i => (itemResults cfg items).get? i)).Perm
        (itemResults cfg items) := by
      have h1 := hperm.filterMap (fun i => (itemResults cfg items).get? i)
      rw [← hlen] at h1
      rw [range_filterMap_get] at h1
      exact h1
    have hdp := collect_foldl cfg
      (order.filterMap (fun i => (itemResults cfg items).get? i)) ([], [])
    constructor
    · rw [show (download_playlist cfg items order).1 =
        ((order.filterMap (fun i => (itemResults cfg items).get? i)).foldl
          (collectStep cfg) ([], [])).1 from rfl]
      rw [hdp]
      dsimp only
      rw [List.nil_append]
      have hPerm2 := hcoll.filterMap (fun r =>
        if r.status == "ok" && pyTruthy r.out then some (r.out.getD "") else none)
      rw [filterMap_pick_eq _ hok] at hPerm2
      exact hPerm2
    · intro hcb
      rw [show (download_playlist cfg items order).2 =
        ((order.filterMap (fun i => (itemResults cfg items).get? i)).foldl
          (collectStep cfg) ([], [])).2 from rfl]
      rw [hdp]
      dsimp only
      rw [List.nil_append]
      simp only [hcb, if_true]
      rw [flatMap_singleton_map]
      rw [List.length_map, hcoll.length_eq, hlen]

/-- Witness for C3: a two-item playlist whose first item always raises and
whose second succeeds, collected out of order. -/
theorem claim_C3_witness :
    (download_playlist cfgPrefer1080 [itemAlwaysRaise, itemOk720] [1, 0]).1.Perm
      (((itemResults cfgPrefer1080 [itemAlwaysRaise, itemOk720]).filter
          (fun r => r.status == "ok")).map (fun r => r.out.getD "")) ∧
    (download_playlist cfgPrefer1080 [itemAlwaysRaise, itemOk720] [1, 0]).2.length = 2 :=
  ⟨(claim_C3_playlist_partial_failure.2 cfgPrefer1080 [itemAlwaysRaise, itemOk720]
      [1, 0] (by decide) (by decide)).1,
   (claim_C3_playlist_partial_failure.2 cfgPrefer1080 [itemAlwaysRaise, itemOk720]
      [1, 0] (by decide) (by decide)).2 rfl⟩

/-- C5 (code defect): the scheduler's terminal per-item callback is invoked
with only four positional arguments `(title, status, video_url, index)` —
not the eight-argument tuple the function's own type annotation declares —
so for an item whose terminal state is reached at collection time (here an
exhausted-retries error) the trace holds a single 4-argument invocation; an
8-parameter observer raises `TypeError`, which the scheduler swallows.  By
contrast, the pipeline-side `completed` invocation does carry eight
arguments. -/
theorem claim_C5_callback_arity_bug :
    (download_playlist cfgPrefer1080 [itemAlwaysRaise] [0]).2 =
      [Effect.callback schedulerErrorArgs] ∧
    schedulerErrorArgs.length = 4 ∧
    ¬schedulerErrorArgs.length = 8 ∧
    (runItem cfgPrefer1080 0 itemOk720).trace =
      [Effect.callback [.vs "t", .vs "completed", .vs "u2", .vi 0, .vi 0, .vi 0,
        .vf 0, .vf 0]] :=
  ⟨by decide, by decide, by decide, by decide⟩

/-- Nonempty strings are truthy. -/
theorem pyTruthy_some_ne {d : String} (h : d ≠ "") : pyTruthy (some d) = true := by
  simp [pyTruthy, h]

/-- Every effect of `audio_cb` is a callback, or a progress write to the
playlist progress path, emitted only when `progress_dir` is truthy. -/
theorem audioCbEffects_cases (cfg : PlaylistCfg) (url title : String)
    (idx : Int) (ev : ProgressEvent) :
    ∀ e ∈ audioCbEffects cfg url title idx ev,
      (∃ args, e = Effect.callback args) ∨
      (pyTruthy cfg.progress_dir = true ∧
        ∃ d, e = Effect.progressWrite (playlistProgressPath cfg idx) d) := by
  intro e he
  unfold audioCbEffects at he
  rcases List.mem_append.1 he with h | h
  · exact Or.inl ⟨_, mem_if_singleton h⟩
  · by_cases hp : pyTruthy cfg.progress_dir = true
    · rw [if_pos hp] at h
      exact Or.inr ⟨hp, _, by simpa using h⟩
    · rw [if_neg hp] at h
      simp at h

/-- Every effect of `video_cb` is a callback, or a progress write to the
playlist progress path, emitted only when `progress_dir` is truthy. -/
theorem videoCbEffects_cases (cfg : PlaylistCfg) (url title : String)
    (idx : Int) (ev : ProgressEvent) :
    ∀ e ∈ videoCbEffects cfg url title idx ev,
      (∃ args, e = Effect.callback args) ∨
      (pyTruthy cfg.progress_dir = true ∧
        ∃ d, e = Effect.progressWrite (playlistProgressPath cfg idx) d) := by
  intro e he
  unfold videoCbEffects at he
  rcases List.mem_append.1 he with h | h
  · exact Or.inl ⟨_, mem_if_singleton h⟩
  · by_cases hp : pyTruthy cfg.progress_dir = true
    · rw [if_pos hp] at h
      exact Or.inr ⟨hp, _, by simpa using h⟩
    · rw [if_neg hp] at h
      simp at h

/-- Every effect of `ytdlp_cb` is a callback. -/
theorem ytdlpCbEffects_cases (cfg : PlaylistCfg) (url title : String)
    (idx : Int) (ev : YtdlpEvent) :
    ∀ e ∈ ytdlpCbEffects cfg url title idx ev,
      ∃ args, e = Effect.callback args := by
  intro e he
  unfold ytdlpCbEffects at he
  exact ⟨_, mem_if_singleton he⟩

/-- Every effect of one attempt is a callback or a progress write to the
playlist progress path, the latter only when `progress_dir` is truthy. -/
theorem attemptStep_effect_cases (cfg : PlaylistCfg) (url : String) (idx : Int)
    (env : AttemptEnv) :
    ∀ e ∈ (attemptStep cfg url idx env).2,
      (∃ args, e = Effect.callback args) ∨
      (pyTruthy cfg.progress_dir = true ∧
        ∃ d, e = Effect.progressWrite (playlistProgressPath cfg idx) d) := by
  intro e he
  unfold attemptStep at he
  split at he
  · simp at he
  · split at he
    · split at he
      · simp at he
      · unfold attemptAudio at he
        split at he
        · simp at he
        · split at he
          · rcases List.mem_append.1 he with h | h
            · rcases List.mem_flatMap.1 h with ⟨ev, _, hmem⟩
              exact audioCbEffects_cases cfg url _ idx ev e hmem
            · exact Or.inl ⟨_, mem_if_singleton h⟩
          · rcases List.mem_flatMap.1 he with ⟨ev, _, hmem⟩
            exact audioCbEffects_cases cfg url _ idx ev e hmem
    · split at he
      · simp at he
      · unfold attemptVideo at he
        split at he
        · simp at he
        · split at he
          · rcases List.mem_append.1 he with h | h
            · rcases List.mem_append.1 h with h' | h'
              · rcases List.mem_flatMap.1 h' with ⟨ev, _, hmem⟩
                exact videoCbEffects_cases cfg url _ idx ev e hmem
              · exact Or.inl ⟨_, mem_if_singleton h'⟩
            · by_cases hp : pyTruthy cfg.progress_dir = true
              · rw [if_pos hp] at h
                exact Or.inr ⟨hp, _, by simpa using h⟩
              · rw [if_neg hp] at h
                simp at h
          · split at he
            · split at he
              · rcases List.mem_append.1 he with h | h
                · rcases List.mem_append.1 h with h' | h'
                  · rcases List.mem_flatMap.1 h' with ⟨ev, _, hmem⟩
                    exact videoCbEffects_cases cfg url _ idx ev e hmem
                  · rcases List.mem_flatMap.1 h' with ⟨ev, _, hmem⟩
                    exact Or.inl (ytdlpCbEffects_cases cfg url _ idx ev e hmem)
                · exact Or.inl ⟨_, mem_if_singleton h⟩
              · rcases List.mem_append.1 he with h | h
                · rcases List.mem_flatMap.1 h with ⟨ev, _, hmem⟩
                  exact videoCbEffects_cases cfg url _ idx ev e hmem
                · rcases List.mem_flatMap.1 h with ⟨ev, _, hmem⟩
                  exact Or.inl (ytdlpCbEffects_cases cfg url _ idx ev e hmem)
            · rcases List.mem_flatMap.1 he with ⟨ev, _, hmem⟩
              exact videoCbEffects_cases cfg url _ idx ev e hmem

/-- Every effect of a whole item run is a sleep, a callback, or a progress
write to the playlist progress path (the latter only when `progress_dir` is
truthy). -/
theorem downloadOneLoop_effect_cases (cfg : PlaylistCfg) (url : String)
    (idx : Int) (envs : Nat → AttemptEnv) :
    ∀ fuel a e, e ∈ (downloadOneLoop cfg url idx envs a fuel).2 →
      (∃ q, e = Effect.sleepFor q) ∨ (∃ args, e = Effect.callback args) ∨
      (pyTruthy cfg.progress_dir = true ∧
        ∃ d, e = Effect.progressWrite (playlistProgressPath cfg idx) d) := by
  intro fuel
  induction fuel with
  | zero => intro a e he; simp [downloadOneLoop] at he
  | succ f ih =>
    intro a e he
    rw [downloadOneLoop] at he
    rcases hres : attemptStep cfg url idx (envs a) with ⟨r, effs⟩
    rw [hres] at he
    cases r with
    | done out title status =>
      exact Or.inr (attemptStep_effect_cases cfg url idx (envs a) e
        (by rw [hres]; exact he))
    | raised m =>
      dsimp only at he
      by_cases hlast : a + 1 > cfg.max_retries
      · rw [if_pos hlast] at he
        exact Or.inr (attemptStep_effect_cases cfg url idx (envs a) e
          (by rw [hres]; exact he))
      · rw [if_neg hlast] at he
        rcases List.mem_append.1 he with h | h
        · exact Or.inr (attemptStep_effect_cases cfg url idx (envs a) e
            (by rw [hres]; exact h))
        · rcases List.mem_cons.1 h with h' | h'
          · exact Or.inl ⟨_, h'⟩
          · exact ih (a + 1) e h'

/-- `audio_cb` does not depend on which truthy directory `progress_dir`
names. -/
theorem audioCbEffects_pd {cfg : PlaylistCfg} {d1 d2 : String} (h1 : d1 ≠ "")
    (h2 : d2 ≠ "") (url title : String) (idx : Int) (ev : ProgressEvent) :
    audioCbEffects { cfg with progress_dir := some d1 } url title idx ev =
      audioCbEffects { cfg with progress_dir := some d2 } url title idx ev := by
  unfold audioCbEffects playlistProgressPath
  dsimp only
  rw [pyTruthy_some_ne h1, pyTruthy_some_ne h2]

/-- `video_cb` does not depend on which truthy directory `progress_dir`
names. -/
theorem videoCbEffects_pd {cfg : PlaylistCfg} {d1 d2 : String} (h1 : d1 ≠ "")
    (h2 : d2 ≠ "") (url title : String) (idx : Int) (ev : ProgressEvent) :
    videoCbEffects { cfg with progress_dir := some d1 } url title idx ev =
      videoCbEffects { cfg with progress_dir := some d2 } url title idx ev := by
  unfold videoCbEffects playlistProgressPath
  dsimp only
  rw [pyTruthy_some_ne h1, pyTruthy_some_ne h2]

/-- `ytdlp_cb` ignores `progress_dir`. -/
theorem ytdlpCbEffects_pd (cfg : PlaylistCfg) (d1 d2 : String)
    (url title : String) (idx : Int) (ev : YtdlpEvent) :
    ytdlpCbEffects { cfg with progress_dir := some d1 } url title idx ev =
      ytdlpCbEffects { cfg with progress_dir := some d2 } url title idx ev := rfl

/-- One attempt does not depend on which truthy directory `progress_dir`
names. -/
theorem attemptStep_pd {cfg : PlaylistCfg} {d1 d2 : String} (h1 : d1 ≠ "")
    (h2 : d2 ≠ "") (url : String) (idx : Int) (env : AttemptEnv) :
    attemptStep { cfg with progress_dir := some d1 } url idx env =
      attemptStep { cfg with progress_dir := some d2 } url idx env := by
  unfold attemptStep
  cases get_video_streams env.resolve with
  | error e => rfl
  | ok dict =>
    dsimp only
    by_cases hao : cfg.audio_only = true
    · rw [if_pos hao, if_pos hao]
      cases dict with
      | ytdlpDict b t => rfl
      | pytubeDict b t prog adap audio =>
        dsimp only
        unfold attemptAudio
        cases audio with
        | nil => rfl
        | cons a as =>
          dsimp only
          rw [funext (audioCbEffects_pd h1 h2 url t idx)]
    · rw [if_neg hao, if_neg hao]
      cases dict with
      | ytdlpDict b t => rfl
      | pytubeDict b t prog adap audio =>
        dsimp only
        unfold attemptVideo
        cases pickVideoStream cfg.resolution_preference prog adap with
        | none => rfl
        | some s =>
          dsimp only
          rw [funext (videoCbEffects_pd h1 h2 url t idx),
            funext (ytdlpCbEffects_pd cfg d1 d2 url t idx)]
          rw [show playlistProgressPath { cfg with progress_dir := some d1 } idx =
            playlistProgressPath { cfg with progress_dir := some d2 } idx from rfl]
          rw [pyTruthy_some_ne h1, pyTruthy_some_ne h2]

/-- The whole item run does not depend on which truthy directory
`progress_dir` names. -/
theorem downloadOne_pd {cfg : PlaylistCfg} {d1 d2 : String} (h1 : d1 ≠ "")
    (h2 : d2 ≠ "") (envs : Nat → AttemptEnv) (url : String) (idx : Int) :
    _download_one { cfg with progress_dir := some d1 } envs url idx =
      _download_one { cfg with progress_dir := some d2 } envs url idx := by
  unfold _download_one
  dsimp only
  suffices h : ∀ fuel a,
      downloadOneLoop { cfg with progress_dir := some d1 } url idx envs a fuel =
        downloadOneLoop { cfg with progress_dir := some d2 } url idx envs a fuel by
    exact h (cfg.max_retries + 1) 0
  intro fuel
  induction fuel with
  | zero => intro a; rfl
  | succ f ih =>
    intro a
    rw [downloadOneLoop, downloadOneLoop, attemptStep_pd h1 h2 url idx (envs a)]
    rcases attemptStep { cfg with progress_dir := some d2 } url idx (envs a)
      with ⟨r, effs⟩
    cases r with
    | done out title status => rfl
    | raised m =>
      dsimp only
      rw [ih (a + 1)]

/-- C10: `progress_dir` acts only as an on/off gate for per-item durable
progress records — with `progress_dir = None` an item run writes no progress
file; every progress write an item run performs targets
`progress_file_for_id(output_path, f'playlist_{index}')`, i.e. a path under
`output_path/.progress/`, never under `progress_dir`; and the entire run is
unchanged when one truthy `progress_dir` value is replaced by another
(the directory it names is never used). -/
theorem claim_C10_progress_dir_gate :
    (∀ (cfg : PlaylistCfg) (envs : Nat → AttemptEnv) (url : String) (idx : Int),
      cfg.progress_dir = none →
      writePathsOf (_download_one cfg envs url idx).2 = []) ∧
    (∀ (cfg : PlaylistCfg) (envs : Nat → AttemptEnv) (url : String) (idx : Int)
       (p : String) (dat : ProgressData),
      Effect.progressWrite p dat ∈ (_download_one cfg envs url idx).2 →
      p = progress_file_for_id cfg.output_path ("playlist_" ++ toString idx)) ∧
    (∀ (cfg : PlaylistCfg) (envs : Nat → AttemptEnv) (url : String) (idx : Int)
       (d1 d2 : String), d1 ≠ "" → d2 ≠ "" →
      _download_one { cfg with progress_dir := some d1 } envs url idx =
        _download_one { cfg with progress_dir := some d2 } envs url idx) := by
  refine ⟨fun cfg envs url idx hnone => ?_, fun cfg envs url idx p dat hmem => ?_,
    fun cfg envs url idx d1 d2 h1 h2 => downloadOne_pd h1 h2 envs url idx⟩
  · unfold writePathsOf
    rw [List.filterMap_eq_nil_iff]
    intro e he
    rcases downloadOneLoop_effect_cases cfg url idx envs (cfg.max_retries + 1) 0 e
      he with ⟨q, rfl⟩ | ⟨args, rfl⟩ | ⟨hp, d, rfl⟩
    · rfl
    · rfl
    · rw [hnone] at hp
      exact absurd hp (by simp [pyTruthy])
  · rcases downloadOneLoop_effect_cases cfg url idx envs (cfg.max_retries + 1) 0 _
      hmem with ⟨q, hq⟩ | ⟨args, hq⟩ | ⟨hp, d, hq⟩
    · cases hq
    · cases hq
    · injection hq with hq1 hq2

/-- Witness for C10: a disabled gate writes nothing, and two distinct truthy
directories yield the same run. -/
theorem claim_C10_witness :
    writePathsOf (_download_one cfgPrefer1080 (fun _ => envOnly720) "u" 0).2 = [] ∧
    _download_one { cfgPrefer1080 with progress_dir := some "/tmp/a" }
        (fun _ => envOnly720) "u" 0 =
      _download_one { cfgPrefer1080 with progress_dir := some "/tmp/b" }
        (fun _ => envOnly720) "u" 0 :=
  ⟨claim_C10_progress_dir_gate.1 cfgPrefer1080 (fun _ => envOnly720) "u" 0 rfl,
   claim_C10_progress_dir_gate.2.2 cfgPrefer1080 (fun _ => envOnly720) "u" 0
     "/tmp/a" "/tmp/b" (by decide) (by decide)⟩
